import Mathlib

/-!
# Tech Innovators Club platform: project visibility and moderation

A shallow embedding of the backend's project workflow (query builder,
engagement scorer, like toggle, moderation handlers and their routes) with
the document store passed explicitly as a value.

Conventions of the embedding
* Dates are integers: milliseconds since the epoch.
* JavaScript numbers are modelled by rationals (finite values only; `NaN`
  and the infinities are outside the model).
* String lengths are counted in characters of the Lean string.
* A stored document is a record; the store is the list of its records.
-/

namespace TechInnovators

/-! ## Data model (`models/Project.js`, `models/User.js`) -/

/-- Hexadecimal text of a document's ObjectId. -/
abbrev Id := String

/-- Values of the `status` enum of `projectSchema`. -/
inductive Status where
  | pending
  | approved
  | rejected
deriving DecidableEq, Repr

/-- Values of the `role` enum of `userSchema`. -/
inductive Role where
  | member
  | moderator
  | admin
deriving DecidableEq, Repr

/-- The text of a role, as stored in the `role` field. -/
def Role.text : Role → String
  | .member => "member"
  | .moderator => "moderator"
  | .admin => "admin"

/-- A stored member document (fields used by the project workflow). -/
structure User where
  id : Id
  fullName : String
  email : String
  password : String
  avatar : String
  role : Role
  isActive : Bool
  joinDate : Int := 0
deriving DecidableEq, Repr

/-- A stored project document. `createdAt` and `updatedAt` are the two
fields added by the schema option `timestamps: true`. -/
structure Project where
  id : Id
  title : String
  description : String
  category : String
  tags : List String
  githubUrl : Option String
  demoUrl : Option String
  teamMembers : List String
  technologies : String
  challenges : Option String
  achievements : Option String
  owner : Id
  collaborators : List Id
  status : Status
  likes : List Id
  views : Int
  featured : Bool
  isPublic : Bool
  createdAt : Int
  updatedAt : Int
deriving DecidableEq, Repr

/-- The persisted store: the `users` and the `projects` collections. -/
structure Store where
  users : List User
  projects : List Project
deriving DecidableEq, Repr

/-! ## Engagement scorer (`utils/projectUtils.js`) -/

/-- What `project.likes` may hold: an array, a number, or anything else. -/
inductive LikesValue where
  | arr (ids : List Id)
  | num (n : ℚ)
  | other
deriving DecidableEq

/-- What `project.views` may hold: a number, or anything else. -/
inductive ViewsValue where
  | num (n : ℚ)
  | other
deriving DecidableEq

/-- The argument of `calculateEngagementScore`. `featured` is the truthiness
of `project.featured`; `createdAt` is `new Date(project.createdAt).getTime()`,
`none` standing for `NaN` (an invalid date). -/
structure ScoreInput where
  likes : LikesValue
  views : ViewsValue
  featured : Bool
  createdAt : Option Int

/-- The number of likes read by the scorer:
`Array.isArray(likes) ? likes.length : (typeof likes === 'number' ? likes : 0)`. -/
def likesOf : LikesValue → ℚ
  | .arr ids => (ids.length : ℚ)
  | .num n => n
  | .other => 0

/-- The number of views read by the scorer:
`typeof views === 'number' ? views : 0`. -/
def viewsOf : ViewsValue → ℚ
  | .num n => n
  | .other => 0

/-- The age in days: `(Date.now() - createdAt) / (1000 * 60 * 60 * 24)`. -/
def daysSinceCreation (now createdAt : Int) : ℚ :=
  ((now - createdAt : Int) : ℚ) / (1000 * 60 * 60 * 24)

/-- The recency bonus: `Math.max(0, 20 - daysSinceCreation / 7)`. -/
def recencyBonus (now createdAt : Int) : ℚ :=
  max 0 (20 - daysSinceCreation now createdAt / 7)

/-- The function `calculateEngagementScore`; `now` is `Date.now()` and the
argument is `none` for a falsy `project`. -/
def calculateEngagementScore (now : Int) (project : Option ScoreInput) : ℚ :=
  match project with
  | none => 0
  | some p =>
    let score : ℚ := 0
    let likes := likesOf p.likes
    let score := score + min (likes * 2) 40
    let views := viewsOf p.views
    let score := score + min ((⌊views / 10⌋ : Int) : ℚ) 20
    let score := if p.featured then score + 20 else score
    let score :=
      match p.createdAt with
      | some createdAt => score + recencyBonus now createdAt
      | none => score
    min score 100

/-- The scoring formula as the specification words it: the four terms added
and the total clamped to the interval from 0 to 100; `d` is the age in days. -/
def specEngagementScore (L V : ℚ) (F : Bool) (d : ℚ) : ℚ :=
  max 0 (min 100
    (min (2 * L) 40 + min ((⌊V / 10⌋ : Int) : ℚ) 20 + (if F then 20 else 0)
      + max 0 (20 - d / 7)))

/-! ## Query builder (`utils/projectUtils.js`) -/

/-- A value of a query-string parameter: absent, one string, a list of
strings (a repeated parameter), or an object (a nested parameter such as
`category[$ne]=x`) given by its fields. -/
inductive QVal where
  | undefined
  | str (s : String)
  | arr (xs : List String)
  | obj (fields : List (String × String))
deriving DecidableEq, Repr

/-- JavaScript truthiness of a query-string value. -/
def QVal.truthy : QVal → Bool
  | .undefined => false
  | .str s => s != ""
  | .arr _ => true
  | .obj _ => true

/-- The `filters` argument of `buildProjectQuery`. -/
structure Filters where
  category : QVal := .undefined
  search : QVal := .undefined
  tag : QVal := .undefined
  technology : QVal := .undefined
  startDate : QVal := .undefined
  endDate : QVal := .undefined
deriving DecidableEq, Repr

/-- The `createdAt` constraint of a query: each bound is absent (`none`) or
a date, itself `none` when `new Date(..)` is an invalid date. -/
structure DateRange where
  gte : Option (Option Int) := none
  lte : Option (Option Int) := none
deriving DecidableEq, Repr

/-- The storage-layer predicate built by `buildProjectQuery`. -/
structure Query where
  status : Status
  category : Option QVal := none
  text : Option QVal := none
  tags : Option (List QVal) := none
  technologies : Option QVal := none
  createdAt : Option DateRange := none
deriving DecidableEq, Repr

/-- The date `new Date(v)` as a timestamp; `parseDate` is the host's date
parser, `none` when the result is an invalid date. -/
def newDate (parseDate : String → Option Int) : QVal → Option Int
  | .undefined => none
  | .str s => parseDate s
  | .arr xs => parseDate (",".intercalate xs)
  | .obj _ => parseDate "[object Object]"

/-- The function `buildProjectQuery`. -/
def buildProjectQuery (parseDate : String → Option Int) (filters : Filters) : Query :=
  let query : Query := { status := .approved }
  let query := if filters.category.truthy then { query with category := some filters.category } else query
  let query := if filters.search.truthy then { query with text := some filters.search } else query
  let query :=
    if filters.tag.truthy then
      { query with tags := some (match filters.tag with
                                 | .arr xs => xs.map QVal.str
                                 | tag => [tag]) }
    else query
  let query :=
    if filters.technology.truthy then { query with technologies := some filters.technology } else query
  let query :=
    if filters.startDate.truthy || filters.endDate.truthy then
      let range : DateRange := {}
      let range :=
        if filters.startDate.truthy then { range with gte := some (newDate parseDate filters.startDate) } else range
      let range :=
        if filters.endDate.truthy then { range with lte := some (newDate parseDate filters.endDate) } else range
      { query with createdAt := some range }
    else query
  query

/-- The parts of the storage layer's matching that the repository does not
define: text-index search, regular-expression match (option `i`), the
comparison of a stored date with an invalid date, the meaning of an object
of query operators applied to a string field, the message with which the
database refuses a query (an operator it does not know, an operand of the
wrong type) if it does, the filter as `countDocuments` casts it against the
schema (or the message of the cast error), and the message of the cast
error for an invalid date. -/
structure Matchers where
  textSearch : QVal → Project → Bool
  regexI : QVal → String → Bool
  invalidDate : Int → Bool
  operators : List (String × String) → String → Bool
  rejects : Query → Option String
  castFilter : Query → Except String Query
  invalidDateMessage : String

/-- Does a stored project satisfy one bound of a date range? -/
def boundHolds (M : Matchers) (cmp : Int → Int → Bool) (bound : Option (Option Int)) (t : Int) : Bool :=
  match bound with
  | none => true
  | some none => M.invalidDate t
  | some (some b) => cmp t b

/-- Has the query a date bound that is an invalid date? -/
def Query.hasInvalidDate (q : Query) : Bool :=
  match q.createdAt with
  | none => false
  | some r => r.gte == some none || r.lte == some none

/-- Does a stored project satisfy a query (the `$match` stage, and
`countDocuments` on the cast filter)? Every constraint present in the query
must hold. -/
def Query.matches (M : Matchers) (q : Query) (p : Project) : Bool :=
  decide (p.status = q.status)
  && (match q.category with
      | none => true
      | some (.str s) => p.category == s
      | some (.obj o) => M.operators o p.category
      | some _ => false)
  && (match q.text with
      | none => true
      | some v => M.textSearch v p)
  && (match q.tags with
      | none => true
      | some xs => p.tags.any (fun t => xs.contains (.str t)))
  && (match q.technologies with
      | none => true
      | some v => M.regexI v p.technologies)
  && (match q.createdAt with
      | none => true
      | some r =>
        boundHolds M (fun t b => decide (b ≤ t)) r.gte p.createdAt
        && boundHolds M (fun t b => decide (t ≤ b)) r.lte p.createdAt)

/-! ## Errors and responses (`middleware/errorHandler.js`) -/

/-- A JavaScript error value, with the properties the handlers inspect.
`keyValue` and `errors` are `none` when the error has no such property;
`errors` holds the messages of the entries of `err.errors`. -/
structure JsError where
  name : String
  message : String
  statusCode : Option Nat := none
  code : Option Nat := none
  keyValue : Option (List (String × String)) := none
  errors : Option (List String) := none
deriving DecidableEq, Repr

/-- The class `ApiError`: an `Error` carrying a status code. -/
def ApiError (message : String) (statusCode : Nat) : JsError :=
  { name := "Error", message := message, statusCode := some statusCode }

/-- The `TypeError` raised when a handler calls `next` although it was
invoked without one. -/
def nextIsNotAFunction : JsError :=
  { name := "TypeError", message := "next is not a function" }

/-- The owner as `populate` leaves it on a document: `_id` and the selected
fields `fullName email avatar`. -/
structure OwnerSummary where
  id : Id
  fullName : String
  email : String
  avatar : String
deriving DecidableEq, Repr

/-- The owner as the `$project` stage of the listing pipelines leaves it. -/
structure ListedOwner where
  fullName : String
  email : String
  avatar : String
deriving DecidableEq, Repr

/-- One element of the listing: the output of the `$project` stage. -/
structure ListedProject where
  id : Id
  owner : Option ListedOwner
  title : String
  description : String
  category : String
  tags : List String
  githubUrl : Option String
  demoUrl : Option String
  teamMembers : List String
  technologies : String
  challenges : Option String
  achievements : Option String
  status : Status
  likes : Nat
  views : Int
  featured : Bool
  createdAt : Int
  updatedAt : Int
deriving DecidableEq, Repr

/-- The `owner` path of a document handed to `res.json`: the bare reference,
or what `populate` put there (`none` when no member has that id). -/
inductive OwnerField where
  | ref (id : Id)
  | populated (owner : Option OwnerSummary)
deriving DecidableEq, Repr

/-- A project document as a handler holds it: the stored fields and the
current content of its `owner` path. -/
structure ProjectDoc where
  doc : Project
  owner : OwnerField
deriving DecidableEq, Repr

/-- One related project: the output of the `$project` stage of
`getRelatedProjects`. -/
structure RelatedProject where
  id : Id
  title : String
  description : String
  category : String
  createdAt : Int
  likes : Nat
  views : Int
  owner : Option ListedOwner
deriving DecidableEq, Repr

/-- The bodies written in answer to a request: the JSON bodies of the
handlers, and the page of the framework. -/
inductive Body where
  /-- The body `{success: true, count, page, totalPages, data}`. -/
  | listing (count : Nat) (page : Int) (totalPages : Int) (data : List ListedProject)
  /-- The body `{success: true, data}` with one project document. -/
  | document (data : ProjectDoc)
  /-- The body `{success: false, error}` of `globalErrorHandler`. -/
  | failure (error : String)
  /-- The body `{message}`. -/
  | message (message : String)
  /-- The body `{errors}` of a failed request validation. -/
  | errors (messages : List String)
  /-- The body `{success: true, data: {...project, engagementScore}, related}`. -/
  | detail (data : ListedProject) (engagementScore : ℚ) (related : List RelatedProject)
  /-- The body `{success: true, message}`. -/
  | removed (message : String)
  /-- The HTML page that the framework's last error handler writes. -/
  | page
deriving DecidableEq, Repr

/-- An HTTP response: the status code set with `res.status` (200 when none
is set) and the body handed to `res.json`. -/
structure Response where
  status : Nat
  body : Body
deriving DecidableEq, Repr

/-- The JavaScript expression `s || d` on strings. -/
def strOr (s d : String) : String := if s = "" then d else s

/-- The JavaScript expression `n || d` on an optional status code. -/
def codeOr (n : Option Nat) (d : Nat) : Nat :=
  match n with
  | some k => if k = 0 then d else k
  | none => d

/-- The `TypeError` raised by `Object.keys` and `Object.values` on
`undefined`. -/
def notAnObject : JsError :=
  { name := "TypeError", message := "Cannot convert undefined or null to object" }

/-- The `RangeError` raised by the runtime when a response is written with
a status code outside the range from 100 to 999. -/
def invalidStatusCode : JsError :=
  { name := "RangeError", message := "Invalid status code" }

/-- The middleware `globalErrorHandler` (outside development mode, so
without the `stack` property). It throws when it reads the keys of a
`keyValue` or the values of an `errors` property that the error lacks, and
when the runtime refuses the status code. -/
def globalErrorHandler (err : JsError) : Except JsError Response := do
  let error : Option Nat × String := (err.statusCode, err.message)
  let error := if err.name = "CastError" then (some 404, "Resource not found") else error
  let error ←
    if err.code = some 11000 then
      match err.keyValue with
      | none => throw notAnObject
      | some keyValue =>
        let field := match keyValue.head? with
          | some kv => kv.1
          | none => "undefined"
        let value := match keyValue.head? with
          | some kv => kv.2
          | none => "undefined"
        pure (some 400, "Duplicate field value: " ++ field ++ " with value \"" ++ value
          ++ "\" already exists. Please use another value!")
    else pure error
  let error ←
    if err.name = "ValidationError" then
      match err.errors with
      | none => throw notAnObject
      | some errors => pure (some 400, ". ".intercalate errors)
    else pure error
  let error :=
    if err.name = "JsonWebTokenError" then (some 401, "Invalid token. Please log in again.") else error
  let error :=
    if err.name = "TokenExpiredError" then (some 401, "Token expired. Please log in again.") else error
  let status := codeOr error.1 500
  if status < 100 ∨ 999 < status then throw invalidStatusCode
  else pure { status := status, body := .failure (strOr error.2 "Server Error") }

/-- The answer of the application to an error handed to `next`: the
response of `globalErrorHandler`, which is the only error middleware; what
that middleware throws goes to the framework's last handler, which answers
with its own page and the status 500. -/
def answerError (err : JsError) : Response :=
  match globalErrorHandler err with
  | .ok response => response
  | .error _ => { status := 500, body := .page }

/-- What a handler did with a request: wrote a response, or handed an error
to `next`. -/
inductive Reply where
  | sent (r : Response)
  | passed (e : JsError)
deriving DecidableEq, Repr

/-- The response the application writes for a reply: an error handed to
`next` reaches the error middleware. -/
def Reply.response : Reply → Response
  | .sent r => r
  | .passed e => answerError e

/-- The call `next(e)` inside a handler: it fails with a `TypeError` when
the handler was invoked without a `next` argument. -/
def callNext (hasNext : Bool) (e : JsError) : Except JsError Reply :=
  if hasNext then .ok (.passed e) else .error nextIsNotAFunction

/-! ## Authentication and authorisation (`middleware/auth.js`) -/

/-- The pieces of a text between single spaces: `text.split(' ')`. -/
def splitSpaces : List Char → List (List Char)
  | [] => [[]]
  | c :: cs =>
    match splitSpaces cs with
    | [] => [[]]
    | w :: ws => if c = ' ' then [] :: w :: ws else (c :: w) :: ws

/-- The expression `authorization.split(' ')[1]`. -/
def bearerToken (header : String) : Option String :=
  ((splitSpaces header.toList).get? 1).map String.mk

/-- The method `startsWith` on strings. -/
def startsWith (text start : String) : Bool :=
  start.toList.isPrefixOf text.toList

/-- Why `jwt.verify` rejected a token. -/
inductive JwtFailure where
  | invalid
  | expired
  | other
deriving DecidableEq, Repr

/-- The middleware `protect`. `verify` stands for `jwt.verify` followed by
reading `decoded.id`; `authorization` is the request header. On success the
result is the member stored in `req.user`. -/
def protect (verify : String → Except JwtFailure Id) (s : Store)
    (authorization : Option String) : Except JsError User :=
  match authorization with
  | none => .error (ApiError "Not authorized, no token" 401)
  | some header =>
    if header = "" || !startsWith header "Bearer" then
      .error (ApiError "Not authorized, no token" 401)
    else
      let failure : JwtFailure → JsError := fun f =>
        match f with
        | .invalid => ApiError "Invalid token" 401
        | .expired => ApiError "Token expired" 401
        | .other => ApiError "Not authorized, token failed" 401
      match bearerToken header with
      | none => .error (failure .invalid)
      | some token =>
        match (if token = "" then .error .invalid else verify token) with
        | .error f => .error (failure f)
        | .ok id =>
          match s.users.find? (fun u => u.id == id) with
          | none => .error (ApiError "User not found" 401)
          | some user =>
            if !user.isActive then .error (ApiError "Account is deactivated" 401)
            else .ok user

/-- The middleware factory `authorize(...roles)` applied to `req.user`. -/
def authorize (roles : List String) (user : Option User) : Except JsError Unit :=
  match user with
  | none =>
    .error (ApiError "User role 'undefined' is not authorized to access this route" 403)
  | some u =>
    if !roles.contains u.role.text then
      .error (ApiError ("User role '" ++ u.role.text ++ "' is not authorized to access this route") 403)
    else .ok ()

/-! ## Public listing (`controllers/projectController.js`) -/

/-- The `$lookup` of a project's owner followed by the `$project` stage. -/
def listProject (s : Store) (p : Project) : ListedProject :=
  { id := p.id
    owner := (s.users.find? (fun u => u.id == p.owner)).map
      (fun u => { fullName := u.fullName, email := u.email, avatar := u.avatar })
    title := p.title
    description := p.description
    category := p.category
    tags := p.tags
    githubUrl := p.githubUrl
    demoUrl := p.demoUrl
    teamMembers := p.teamMembers
    technologies := p.technologies
    challenges := p.challenges
    achievements := p.achievements
    status := p.status
    likes := p.likes.length
    views := p.views
    featured := p.featured
    createdAt := p.createdAt
    updatedAt := p.updatedAt }

/-- The query string of `GET /api/projects`: `page` and `limit` are the
results of `parseInt`, `none` for `NaN`. -/
structure ListRequest where
  page : Option Int := none
  limit : Option Int := none
  category : QVal := .undefined
  search : QVal := .undefined
  tag : QVal := .undefined
  technology : QVal := .undefined
  startDate : QVal := .undefined
  endDate : QVal := .undefined
deriving DecidableEq, Repr

/-- The JavaScript expression `n || d` on the result of `parseInt`. -/
def intOr (n : Option Int) (d : Int) : Int :=
  match n with
  | some k => if k = 0 then d else k
  | none => d

/-- The `filters` object that `getProjects` builds from the query string. -/
def ListRequest.filters (req : ListRequest) : Filters :=
  { category := req.category, search := req.search, tag := req.tag
    technology := req.technology, startDate := req.startDate, endDate := req.endDate }

/-- The stored projects that the `$match` stage lets through, projected and
sorted newest first. -/
def matchedSorted (M : Matchers) (s : Store) (query : Query) : List ListedProject :=
  ((s.projects.filter (fun p => query.matches M p)).map (listProject s)).insertionSort
    (fun a b => b.createdAt ≤ a.createdAt)

/-- The aggregation pipeline of `getProjects`: `$match`, owner lookup and
projection, `$sort` newest first, `$skip`, `$limit`. The query reaches the
database as it was built; the database refuses a negative `$skip` and a
non-positive `$limit`. -/
def listingPipeline (M : Matchers) (s : Store) (query : Query) (skip limit : Int) :
    Except JsError (List ListedProject) :=
  match M.rejects query with
  | some message => .error { name := "MongoError", message := message }
  | none =>
    if skip < 0 then .error { name := "MongoServerError", message := "invalid argument to $skip stage" }
    else if limit ≤ 0 then .error { name := "MongoServerError", message := "the limit must be positive" }
    else .ok (((matchedSorted M s query).drop skip.toNat).take limit.toNat)

/-- The storage call `Project.countDocuments(query)`. Unlike the
aggregation it casts the filter against the schema first, and the cast of
an invalid date fails with a `CastError`. -/
def countDocuments (M : Matchers) (s : Store) (query : Query) : Except JsError Nat :=
  match M.castFilter query with
  | .error message => .error { name := "CastError", message := message }
  | .ok cast =>
    if query.hasInvalidDate then .error { name := "CastError", message := M.invalidDateMessage }
    else
      match M.rejects cast with
      | some message => .error { name := "MongoError", message := message }
      | none => .ok (s.projects.filter (fun p => cast.matches M p)).length

/-- The handler `getProjects`, mounted directly (so `next` is defined). -/
def getProjects (M : Matchers) (parseDate : String → Option Int) (s : Store)
    (req : ListRequest) : Reply :=
  let page := intOr req.page 1
  let limit := intOr req.limit 10
  let skip := (page - 1) * limit
  let query := buildProjectQuery parseDate req.filters
  let attempt : Except JsError Response :=
    match listingPipeline M s query skip limit with
    | .error error => .error error
    | .ok projects =>
      match countDocuments M s query with
      | .error error => .error error
      | .ok total =>
        .ok { status := 200
              body := .listing projects.length page ⌈((total : ℚ) / (limit : ℚ))⌉ projects }
  match attempt with
  | .ok response => .sent response
  | .error error => .passed (ApiError (strOr error.message "Server error getting projects") 500)

/-! ## Storage operations on projects -/

/-- The identifier in a request path, classified by whether the storage
layer can cast it to an ObjectId. -/
inductive IdParam where
  | objectId (id : Id)
  | malformed (raw : String)
deriving DecidableEq, Repr

/-- The error raised by the storage layer for a malformed identifier. -/
def castError : JsError :=
  { name := "CastError", message := "Cast to ObjectId failed" }

/-- The stored project with a given id. -/
def Store.findProject (s : Store) (id : Id) : Option Project :=
  s.projects.find? (fun p => p.id == id)

/-- The population of a project's `owner` path with `fullName email avatar`. -/
def populateOwner (s : Store) (p : Project) : Option OwnerSummary :=
  (s.users.find? (fun u => u.id == p.owner)).map
    (fun u => { id := u.id, fullName := u.fullName, email := u.email, avatar := u.avatar })

/-- The call `Project.findById(id)`: the hook `projectSchema.pre(/^find/)`
populates `owner` on every find. -/
def findById (s : Store) (id : Id) : Option ProjectDoc :=
  (s.findProject id).map (fun p => { doc := p, owner := .populated (populateOwner s p) })

/-- Replace the stored document that has the id of `doc`. -/
def replaceProject : List Project → Project → List Project
  | [], _ => []
  | p :: ps, doc => if p.id == doc.id then doc :: ps else p :: replaceProject ps doc

/-- Persist a loaded document: `project.save()` and the write of
`findByIdAndUpdate`. -/
def Store.saveProject (s : Store) (doc : Project) : Store :=
  { s with projects := replaceProject s.projects doc }

/-- The template of a moderation e-mail. -/
inductive TemplateKind where
  | approval
  | rejection
deriving DecidableEq, Repr

/-- A notification handed to the mailer: the arguments of
`sendProjectApprovalEmail` and `sendProjectRejectionEmail`. -/
structure Notification where
  kind : TemplateKind
  email : String
  fullName : String
  projectName : String
  reason : Option String
deriving DecidableEq, Repr

/-- The outcome of a request: the response written (`none` when the request
is left without one), the store afterwards, the notifications handed to the
mailer and the console lines. -/
structure Outcome where
  response : Option Response
  store : Store
  sent : List Notification := []
  log : List String := []
deriving DecidableEq, Repr

/-- The outcome of an error reaching `globalErrorHandler`, which prints it. -/
def errorOutcome (s : Store) (e : JsError) : Outcome :=
  { response := some (answerError e), store := s, log := [e.message] }

/-- The outcome of a handler mounted directly on a route. -/
def mounted (s : Store) (r : Except JsError (Reply × Store)) : Outcome :=
  match r with
  | .ok (.sent res, s') => { response := some res, store := s' }
  | .ok (.passed e, s') => errorOutcome s' e
  | .error _ => { response := none, store := s }

/-! ## Like toggle (`likeProject`) -/

/-- The like toggle: `likes.some(..)` decides between `likes.pull(userId)`,
which removes every entry equal to the member, and `likes.push(userId)`. -/
def toggleLike (likes : List Id) (userId : Id) : List Id :=
  let isLiked := likes.any (fun like => like == userId)
  if isLiked then likes.filter (fun like => like != userId)
  else likes ++ [userId]

/-- The handler `likeProject`; `now` stamps `updatedAt` on save. -/
def likeProject (now : Int) (s : Store) (id : IdParam) (user : User) (hasNext : Bool) :
    Except JsError (Reply × Store) :=
  let attempt : Except JsError (Reply × Store) :=
    match id with
    | .malformed _ => .error castError
    | .objectId projectId =>
      match findById s projectId with
      | none => (callNext hasNext (ApiError "Project not found" 404)).map (fun r => (r, s))
      | some project =>
        let doc := { project.doc with
          likes := toggleLike project.doc.likes user.id, updatedAt := now }
        .ok (.sent { status := 200, body := .document { project with doc := doc } },
             s.saveProject doc)
  match attempt with
  | .ok r => .ok r
  | .error error =>
    if error.name = "CastError" then
      (callNext hasNext (ApiError "Invalid project ID" 400)).map (fun r => (r, s))
    else
      (callNext hasNext (ApiError (strOr error.message "Server error liking project") 500)).map
        (fun r => (r, s))

/-- The route `PATCH /api/projects/:id/like`: `protect`, then `likeProject`. -/
def likeRoute (verify : String → Except JwtFailure Id) (now : Int) (s : Store)
    (authorization : Option String) (id : IdParam) : Outcome :=
  match protect verify s authorization with
  | .error e => errorOutcome s e
  | .ok user => mounted s (likeProject now s id user true)

/-! ## Creation and update (`createProject`, `updateProject`, `routes/projects.js`) -/

/-- A request body restricted to the declared paths of `projectSchema`;
an absent field is `none`. -/
structure ProjectBody where
  title : Option String := none
  description : Option String := none
  category : Option String := none
  tags : Option (List String) := none
  githubUrl : Option String := none
  demoUrl : Option String := none
  teamMembers : Option (List String) := none
  technologies : Option String := none
  challenges : Option String := none
  achievements : Option String := none
  owner : Option Id := none
  collaborators : Option (List Id) := none
  status : Option String := none
  likes : Option (List Id) := none
  views : Option Int := none
  featured : Option Bool := none
  isPublic : Option Bool := none
deriving DecidableEq, Repr

/-- The values of the `category` enum. -/
def categories : List String :=
  ["Web Development", "Mobile App", "Machine Learning", "Blockchain", "Cybersecurity",
   "IoT", "Game Development", "Data Science", "DevOps", "Other"]

/-- The `status` enum read from its text. -/
def Status.parse : String → Option Status
  | "pending" => some .pending
  | "approved" => some .approved
  | "rejected" => some .rejected
  | _ => none

/-- The check of a required string path with length bounds. -/
def checkText (value : Option String) (required : Bool) (min max : Nat)
    (missing tooShort tooLong : String) : List String :=
  match value with
  | none => if required then [missing] else []
  | some v =>
    if v = "" then [missing]
    else if v.length > max then [tooLong]
    else if v.length < min then [tooShort]
    else []

/-- The check of an optional string path with a maximal length. -/
def checkMax (value : Option String) (max : Nat) (tooLong : String) : List String :=
  match value with
  | none => []
  | some v => if v.length > max then [tooLong] else []

/-- The check of a URL path: `!value || validator.isURL(value)`. -/
def checkUrl (isURL : String → Bool) (value : Option String) (invalid : String) : List String :=
  match value with
  | none => []
  | some v => if v = "" || isURL v then [] else [invalid]

/-- The white space of the JavaScript language (the characters of the class
`\s`): the code points of `WhiteSpace` and of `LineTerminator`, among them
the no-break space U+00A0. -/
def isWhiteSpace (c : Char) : Bool :=
  let n := c.toNat
  n == 9 || n == 10 || n == 11 || n == 12 || n == 13 || n == 32 || n == 160 || n == 5760
    || (decide (8192 ≤ n) && decide (n ≤ 8202)) || n == 8232 || n == 8233 || n == 8239
    || n == 8287 || n == 12288 || n == 65279

/-- The method `trim` on strings, and the sanitizer `trim()` of the request
validators: leading and trailing white space removed. -/
def trim (text : String) : String :=
  String.mk ((text.toList.dropWhile isWhiteSpace).reverse.dropWhile isWhiteSpace).reverse

/-- The method `toLowerCase` on strings (letters of the basic alphabet). -/
def toLowerCase (text : String) : String :=
  String.mk (text.toList.map Char.toLower)

/-- The schema setters applied to a body: `trim` on `title`, `technologies`
and the team members, `trim` and `lowercase` on the tags. -/
def applySetters (body : ProjectBody) : ProjectBody :=
  { body with
    title := body.title.map trim
    technologies := body.technologies.map trim
    tags := body.tags.map (fun ts => ts.map (fun t => toLowerCase (trim t)))
    teamMembers := body.teamMembers.map (fun ms => ms.map trim) }

/-- The validators of `projectSchema` on the fields of a body, after the
setters. With `required` set (document creation) an absent required path
fails; without it (update validators) only the fields present are checked. -/
def schemaErrors (isURL : String → Bool) (required : Bool) (body : ProjectBody) : List String :=
  checkText body.title required 5 100 "Please provide a project title"
      "Title must be at least 5 characters" "Title cannot be more than 100 characters"
  ++ checkText body.description required 50 2000 "Please provide a project description"
      "Description must be at least 50 characters"
      "Description cannot be more than 2000 characters"
  ++ (match body.category with
      | none => if required then ["Please select a category"] else []
      | some c =>
        if c = "" then ["Please select a category"]
        else if categories.contains c then []
        else ["Category must be one of the predefined values"])
  ++ (match body.tags with
      | none => []
      | some ts => if ts.all (fun t => t.length ≤ 30) then []
                   else ["Each tag cannot exceed 30 characters"])
  ++ checkUrl isURL body.githubUrl "Please provide a valid GitHub URL"
  ++ checkUrl isURL body.demoUrl "Please provide a valid URL"
  ++ (match body.teamMembers with
      | none => []
      | some ms => if ms.all (fun m => m.length ≤ 50) then []
                   else ["Each team member name cannot exceed 50 characters"])
  ++ checkText body.technologies required 0 500 "Please list the technologies used"
      "" "Technologies field cannot exceed 500 characters"
  ++ checkMax body.challenges 1000 "Challenges description cannot exceed 1000 characters"
  ++ checkMax body.achievements 1000 "Achievements description cannot exceed 1000 characters"
  ++ (match body.owner with
      | none => if required then ["Path owner is required."] else []
      | some _ => [])
  ++ (match body.status with
      | none => []
      | some st => if (Status.parse st).isSome then []
                   else ["Status must be either pending, approved, or rejected"])
  ++ (match body.views with
      | none => []
      | some v => if v < 0 then ["Views cannot be negative"] else [])

/-- The error raised when schema validation fails. -/
def validationError (messages : List String) : JsError :=
  { name := "ValidationError"
    message := "Validation failed: " ++ ", ".intercalate messages
    errors := some messages }

/-- The call `Project.create(body)`: setters, defaults, validation and
insertion; `newId` is the fresh ObjectId and `now` the clock. -/
def createDocument (isURL : String → Bool) (newId : Id) (now : Int) (s : Store)
    (body : ProjectBody) : Except JsError (Project × Store) :=
  let body := applySetters body
  match schemaErrors isURL true body with
  | [] =>
    let project : Project :=
      { id := newId
        title := body.title.getD ""
        description := body.description.getD ""
        category := body.category.getD ""
        tags := body.tags.getD []
        githubUrl := body.githubUrl
        demoUrl := body.demoUrl
        teamMembers := body.teamMembers.getD []
        technologies := body.technologies.getD ""
        challenges := body.challenges
        achievements := body.achievements
        owner := body.owner.getD ""
        collaborators := body.collaborators.getD []
        status := ((body.status.bind Status.parse).getD .pending)
        likes := body.likes.getD []
        views := body.views.getD 0
        featured := body.featured.getD false
        isPublic := body.isPublic.getD true
        createdAt := now
        updatedAt := now }
    .ok (project, { s with projects := s.projects ++ [project] })
  | messages => .error (validationError messages)

/-- The handler `createProject`. -/
def createProject (isURL : String → Bool) (newId : Id) (now : Int) (s : Store) (user : User)
    (body : ProjectBody) (hasNext : Bool) : Except JsError (Reply × Store) :=
  let attempt : Except JsError (Reply × Store) :=
    let body := { body with owner := some user.id }
    match createDocument isURL newId now s body with
    | .error e => .error e
    | .ok (project, s') =>
      .ok (.sent { status := 201, body := .document { doc := project, owner := .ref project.owner } },
           s')
  match attempt with
  | .ok r => .ok r
  | .error error =>
    (callNext hasNext (ApiError (strOr error.message "Server error creating project") 500)).map
      (fun r => (r, s))

/-- The check `isLength({min, max})` of the request validators. -/
def lengthWithin (v : String) (min max : Nat) : Bool :=
  decide (min ≤ v.length) && decide (v.length ≤ max)

/-- The validation chain of `POST /api/projects`: the messages of the failed
checks, and the body with the sanitizer `trim` applied. -/
def validateCreate (body : ProjectBody) : List String × ProjectBody :=
  let title := trim (body.title.getD "")
  let description := trim (body.description.getD "")
  let technologies := trim (body.technologies.getD "")
  let errors :=
    (if lengthWithin title 5 100 then [] else ["Title must be between 5 and 100 characters"])
    ++ (if lengthWithin description 50 2000 then []
        else ["Description must be between 50 and 2000 characters"])
    ++ (if (body.category.getD "") = "" then ["Category is required"] else [])
    ++ (if technologies = "" then ["Technologies used are required"] else [])
  (errors, { body with
    title := some title, description := some description, technologies := some technologies })

/-- The route `POST /api/projects`: `protect`, the validation chain, then
`createProject(req, res)` called without `next` inside `try`/`catch`. -/
def createRoute (verify : String → Except JwtFailure Id) (isURL : String → Bool) (newId : Id)
    (now : Int) (s : Store) (authorization : Option String) (body : ProjectBody) : Outcome :=
  match protect verify s authorization with
  | .error e => errorOutcome s e
  | .ok user =>
    match validateCreate body with
    | ([], body) =>
      match createProject isURL newId now s user body false with
      | .ok (reply, s') => { response := some reply.response, store := s' }
      | .error _ =>
        { response := some { status := 500, body := .message "Server error creating project" }
          store := s }
    | (errors, _) => { response := some { status := 400, body := .errors errors }, store := s }

/-- The text of a populated owner document, as `toString()` prints it: the
printed object. The layout is that of the runtime's object printer and is
approximated here; it is the text of an object and not the text of an id. -/
def inspectOwner (o : OwnerSummary) : String :=
  "\x7b _id: " ++ o.id ++ ", fullName: '" ++ o.fullName ++ "', email: '" ++ o.email
    ++ "', avatar: '" ++ o.avatar ++ "' \x7d"

/-- The expression `project.owner.toString()`: the id for a bare reference,
the printed document for a populated owner, a `TypeError` for `null`. -/
def ownerToString : OwnerField → Except JsError String
  | .ref id => .ok id
  | .populated (some o) => .ok (inspectOwner o)
  | .populated none =>
    .error { name := "TypeError", message := "Cannot read properties of null (reading 'toString')" }

/-- The request body of `PUT /api/projects/:id`, which `updateProject`
hands to `findByIdAndUpdate` whole: the fields at the declared paths of the
schema, and the keys that start with `$`, the update operators of the
storage layer (`$set`, `$unset`, `$rename`, `$inc`, ...; at top level, or as
the stages of an array body), each with the paths and values it names. -/
structure UpdateBody where
  fields : ProjectBody := {}
  operators : List (String × List (String × String)) := []
deriving DecidableEq, Repr

/-- The storage layer's write of an update that carries operators, which
the repository does not define: from the operators, the fields beside them,
the clock and the stored document, the document written or an error. -/
abbrev Operate :=
  List (String × List (String × String)) → ProjectBody → Int → Project → Except JsError Project

/-- The write of an update without operators: the fields present in the
body are set after the setters and the update validators, and `updatedAt`
is stamped. -/
def setFields (isURL : String → Bool) (now : Int) (p : Project) (body : ProjectBody) :
    Except JsError Project :=
  let body := applySetters body
  match schemaErrors isURL false body with
  | [] =>
    .ok { p with
      title := body.title.getD p.title
      description := body.description.getD p.description
      category := body.category.getD p.category
      tags := body.tags.getD p.tags
      githubUrl := body.githubUrl.orElse (fun _ => p.githubUrl)
      demoUrl := body.demoUrl.orElse (fun _ => p.demoUrl)
      teamMembers := body.teamMembers.getD p.teamMembers
      technologies := body.technologies.getD p.technologies
      challenges := body.challenges.orElse (fun _ => p.challenges)
      achievements := body.achievements.orElse (fun _ => p.achievements)
      owner := body.owner.getD p.owner
      collaborators := body.collaborators.getD p.collaborators
      status := (body.status.bind Status.parse).getD p.status
      likes := body.likes.getD p.likes
      views := body.views.getD p.views
      featured := body.featured.getD p.featured
      isPublic := body.isPublic.getD p.isPublic
      updatedAt := now }
  | messages => .error (validationError messages)

/-- The write of `Project.findByIdAndUpdate(id, body, {new, runValidators})`:
a body without operators sets its fields; a body with operators is the
storage layer's to apply, and the `_id` of the document stays. -/
def applyUpdate (operate : Operate) (isURL : String → Bool) (now : Int) (p : Project)
    (body : UpdateBody) : Except JsError Project :=
  match body.operators with
  | [] => setFields isURL now p body.fields
  | operators => (operate operators body.fields now p).map (fun q => { q with id := p.id })

/-- The handler `updateProject`. -/
def updateProject (operate : Operate) (isURL : String → Bool) (now : Int) (s : Store)
    (id : IdParam) (user : User) (body : UpdateBody) (hasNext : Bool) :
    Except JsError (Reply × Store) :=
  let attempt : Except JsError (Reply × Store) :=
    match id with
    | .malformed _ => .error castError
    | .objectId projectId =>
      match findById s projectId with
      | none => (callNext hasNext (ApiError "Project not found" 404)).map (fun r => (r, s))
      | some project =>
        match ownerToString project.owner with
        | .error e => .error e
        | .ok ownerText =>
          if ownerText != user.id && user.role != .admin then
            (callNext hasNext (ApiError "Not authorized to update this project" 403)).map
              (fun r => (r, s))
          else
            match applyUpdate operate isURL now project.doc body with
            | .error e => .error e
            | .ok doc =>
              let s' := s.saveProject doc
              .ok (.sent { status := 200
                           body := .document { doc := doc, owner := .populated (populateOwner s' doc) } },
                   s')
  match attempt with
  | .ok r => .ok r
  | .error error =>
    if error.name = "CastError" then
      (callNext hasNext (ApiError "Invalid project ID" 400)).map (fun r => (r, s))
    else
      (callNext hasNext (ApiError (strOr error.message "Server error updating project") 500)).map
        (fun r => (r, s))

/-- The validation chain of `PUT /api/projects/:id`: every check is
`optional()`, so it runs only on the fields present; the checks read the
fields `title`, `description` and `category` of the body and nothing else. -/
def validateUpdate (body : UpdateBody) : List String × UpdateBody :=
  let title := body.fields.title.map trim
  let description := body.fields.description.map trim
  let errors :=
    (match title with
     | none => []
     | some t => if lengthWithin t 5 100 then []
                 else ["Title must be between 5 and 100 characters"])
    ++ (match description with
        | none => []
        | some d => if lengthWithin d 50 2000 then []
                    else ["Description must be between 50 and 2000 characters"])
    ++ (match body.fields.category with
        | none => []
        | some c => if c = "" then ["Category is required"] else [])
  (errors, { body with fields := { body.fields with title := title, description := description } })

/-- The route `PUT /api/projects/:id`: `protect`, the validation chain, then
`updateProject(req, res)` called without `next` inside `try`/`catch`. -/
def updateRoute (operate : Operate) (verify : String → Except JwtFailure Id)
    (isURL : String → Bool) (now : Int) (s : Store) (authorization : Option String)
    (id : IdParam) (body : UpdateBody) : Outcome :=
  match protect verify s authorization with
  | .error e => errorOutcome s e
  | .ok user =>
    match validateUpdate body with
    | ([], body) =>
      match updateProject operate isURL now s id user body false with
      | .ok (reply, s') => { response := some reply.response, store := s' }
      | .error _ =>
        { response := some { status := 500, body := .message "Server error updating project" }
          store := s }
    | (errors, _) => { response := some { status := 400, body := .errors errors }, store := s }

/-! ## Moderation (`controllers/adminController.js`, `routes/admin.js`) -/

/-- The function `sendProjectApprovalEmail`: the notification handed to the
transport, whether delivery succeeded, and the line printed on failure
before the error is rethrown. `deliver` stands for the mail transport. -/
def sendProjectApprovalEmail (deliver : Notification → Bool) (email fullName projectName : String) :
    Notification × Bool × List String :=
  let n : Notification :=
    { kind := .approval, email := email, fullName := fullName, projectName := projectName
      reason := none }
  if deliver n then (n, true, []) else (n, false, ["Error sending project approval email:"])

/-- The function `sendProjectRejectionEmail`. -/
def sendProjectRejectionEmail (deliver : Notification → Bool)
    (email fullName projectName reason : String) : Notification × Bool × List String :=
  let n : Notification :=
    { kind := .rejection, email := email, fullName := fullName, projectName := projectName
      reason := some reason }
  if deliver n then (n, true, []) else (n, false, ["Error sending project rejection email:"])

/-- The assignment `project.status = target` followed by `project.save()`:
a document that is not modified is not written, a modified one is written
with `updatedAt` stamped. -/
def setStatus (now : Int) (p : Project) (target : Status) : Project :=
  if p.status = target then p else { p with status := target, updatedAt := now }

/-- The handler `approveProject`. -/
def approveProject (deliver : Notification → Bool) (now : Int) (s : Store) (id : IdParam) :
    Outcome :=
  match id with
  | .malformed _ =>
    { response := some { status := 500, body := .message "Server error approving project" }
      store := s, log := ["Approve project error:"] }
  | .objectId projectId =>
    match findById s projectId with
    | none => { response := some { status := 404, body := .message "Project not found" }, store := s }
    | some project =>
      let doc := setStatus now project.doc .approved
      let s' := s.saveProject doc
      let response : Response :=
        { status := 200, body := .document { doc := doc, owner := project.owner } }
      match populateOwner s project.doc with
      | some owner =>
        let (n, delivered, printed) :=
          sendProjectApprovalEmail deliver owner.email owner.fullName doc.title
        { response := some response, store := s', sent := [n]
          log := if delivered then ["Approval email sent to " ++ owner.email]
                 else printed ++ ["Error sending approval email:"] }
      | none => { response := some response, store := s' }

/-- The handler `rejectProject`. -/
def rejectProject (deliver : Notification → Bool) (now : Int) (s : Store) (id : IdParam) :
    Outcome :=
  match id with
  | .malformed _ =>
    { response := some { status := 500, body := .message "Server error rejecting project" }
      store := s, log := ["Reject project error:"] }
  | .objectId projectId =>
    match findById s projectId with
    | none => { response := some { status := 404, body := .message "Project not found" }, store := s }
    | some project =>
      let doc := setStatus now project.doc .rejected
      let s' := s.saveProject doc
      let response : Response :=
        { status := 200, body := .document { doc := doc, owner := project.owner } }
      match populateOwner s project.doc with
      | some owner =>
        let (n, delivered, printed) :=
          sendProjectRejectionEmail deliver owner.email owner.fullName doc.title
            "Did not meet community guidelines"
        { response := some response, store := s', sent := [n]
          log := if delivered then ["Rejection email sent to " ++ owner.email]
                 else printed ++ ["Error sending rejection email:"] }
      | none => { response := some response, store := s' }

/-- An admin route: `protect`, `authorize('admin')`, then the handler. -/
def adminRoute (verify : String → Except JwtFailure Id) (s : Store)
    (authorization : Option String) (handler : Store → Outcome) : Outcome :=
  match protect verify s authorization with
  | .error e => errorOutcome s e
  | .ok user =>
    match authorize ["admin"] (some user) with
    | .error e => errorOutcome s e
    | .ok _ => handler s

/-- The route `PATCH /api/admin/projects/:id/approve`. -/
def approveRoute (verify : String → Except JwtFailure Id) (deliver : Notification → Bool)
    (now : Int) (s : Store) (authorization : Option String) (id : IdParam) : Outcome :=
  adminRoute verify s authorization (fun s => approveProject deliver now s id)

/-- The route `PATCH /api/admin/projects/:id/reject`. -/
def rejectRoute (verify : String → Except JwtFailure Id) (deliver : Notification → Bool)
    (now : Int) (s : Store) (authorization : Option String) (id : IdParam) : Outcome :=
  adminRoute verify s authorization (fun s => rejectProject deliver now s id)

/-! ## Single project fetch (`getProject`, `getRelatedProjects`) -/

/-- The error raised by `mongoose.Types.ObjectId(text)` for a text that is
not an ObjectId: a plain error of the driver, not a `CastError`. -/
def objectIdError : JsError :=
  { name := "Error"
    message := "Argument passed in must be a single String of 12 bytes or a string of 24 hex characters" }

/-- The `$lookup` of the owner and the `$project` stage of
`getRelatedProjects`. -/
def relateProject (s : Store) (p : Project) : RelatedProject :=
  { id := p.id
    title := p.title
    description := p.description
    category := p.category
    createdAt := p.createdAt
    likes := p.likes.length
    views := p.views
    owner := (s.users.find? (fun u => u.id == p.owner)).map
      (fun u => { fullName := u.fullName, email := u.email, avatar := u.avatar }) }

/-- The `$match` stage of `getRelatedProjects`: another id, the category,
status `approved`. -/
def isRelated (projectId : Id) (category : String) (p : Project) : Bool :=
  p.id != projectId && p.category == category && decide (p.status = .approved)

/-- The static method `getRelatedProjects`: any error (a malformed id, a
`$limit` that is not positive) is caught and gives the empty list. -/
def getRelatedProjects (s : Store) (projectId : IdParam) (category : String) (limit : Int) :
    List RelatedProject :=
  match projectId with
  | .malformed _ => []
  | .objectId pid =>
    if limit ≤ 0 then []
    else ((s.projects.filter (isRelated pid category)).map (relateProject s)).take limit.toNat

/-- The write `findByIdAndUpdate(id, {$inc: {views: 1}})`: the counter of
the stored project is incremented and `updatedAt` is stamped. -/
def incrementViews (now : Int) (s : Store) (id : Id) : Store :=
  match s.findProject id with
  | none => s
  | some p => s.saveProject { p with views := p.views + 1, updatedAt := now }

/-- The `catch` clause of `getProject`. -/
def getProjectCatch (s : Store) (hasNext : Bool) (error : JsError) :
    Except JsError (Reply × Store) :=
  if error.name = "CastError" then
    (callNext hasNext (ApiError "Invalid project ID" 400)).map (fun r => (r, s))
  else
    (callNext hasNext (ApiError (strOr error.message "Server error getting project") 500)).map
      (fun r => (r, s))

/-- The handler `getProject`: the aggregation reads the project, then the
view counter is incremented, then the score is computed from what was read. -/
def getProject (now : Int) (s : Store) (id : IdParam) (hasNext : Bool) :
    Except JsError (Reply × Store) :=
  let attempt : Except JsError (Reply × Store) :=
    match id with
    | .malformed _ => .error objectIdError
    | .objectId projectId =>
      match (s.findProject projectId).map (listProject s) with
      | none => (callNext hasNext (ApiError "Project not found" 404)).map (fun r => (r, s))
      | some project =>
        let s' := incrementViews now s projectId
        let engagementScore := calculateEngagementScore now
          (some { likes := .num project.likes, views := .num project.views
                  featured := project.featured, createdAt := some project.createdAt })
        let relatedProjects := getRelatedProjects s' id project.category 3
        .ok (.sent { status := 200, body := .detail project engagementScore relatedProjects }, s')
  match attempt with
  | .ok r => .ok r
  | .error error => getProjectCatch s hasNext error

/-- The route `GET /api/projects/:id`: `getProject` mounted directly. -/
def getProjectRoute (now : Int) (s : Store) (id : IdParam) : Outcome :=
  mounted s (getProject now s id true)

/-! ## Deletion (`deleteProject`) -/

/-- Remove the stored document that has the given id. -/
def eraseProject : List Project → Id → List Project
  | [], _ => []
  | p :: ps, id => if p.id == id then ps else p :: eraseProject ps id

/-- The handler `deleteProject`. -/
def deleteProject (s : Store) (id : IdParam) (user : User) (hasNext : Bool) :
    Except JsError (Reply × Store) :=
  let attempt : Except JsError (Reply × Store) :=
    match id with
    | .malformed _ => .error castError
    | .objectId projectId =>
      match findById s projectId with
      | none => (callNext hasNext (ApiError "Project not found" 404)).map (fun r => (r, s))
      | some project =>
        match ownerToString project.owner with
        | .error e => .error e
        | .ok ownerText =>
          if ownerText != user.id && user.role != .admin then
            (callNext hasNext (ApiError "Not authorized to delete this project" 403)).map
              (fun r => (r, s))
          else
            .ok (.sent { status := 200, body := .removed "Project removed" },
                 { s with projects := eraseProject s.projects projectId })
  match attempt with
  | .ok r => .ok r
  | .error error =>
    if error.name = "CastError" then
      (callNext hasNext (ApiError "Invalid project ID" 400)).map (fun r => (r, s))
    else
      (callNext hasNext (ApiError (strOr error.message "Server error deleting project") 500)).map
        (fun r => (r, s))

/-- The route `DELETE /api/projects/:id`: `protect`, then `deleteProject`. -/
def deleteRoute (verify : String → Except JwtFailure Id) (s : Store)
    (authorization : Option String) (id : IdParam) : Outcome :=
  match protect verify s authorization with
  | .error e => errorOutcome s e
  | .ok user => mounted s (deleteProject s id user true)

/-! ## Leaderboard and metrics (`utils/userUtils.js`) -/

/-- The result of `calculateUserMetrics`. -/
structure UserMetrics where
  totalProjects : Nat
  approvedProjects : Nat
  pendingProjects : Nat
  rejectedProjects : Nat
  totalProjectViews : Int
  totalProjectLikes : Nat
  avgProjectEngagement : ℚ
  joinDate : Int
  daysSinceJoin : Int
deriving DecidableEq

/-- The body of the loop of `calculateUserMetrics`: the counter named after
the status is incremented, views and likes are added. -/
def metricsStep (metrics : UserMetrics) (project : Project) : UserMetrics :=
  let metrics : UserMetrics :=
    match project.status with
    | .approved => { metrics with approvedProjects := metrics.approvedProjects + 1 }
    | .pending => { metrics with pendingProjects := metrics.pendingProjects + 1 }
    | .rejected => { metrics with rejectedProjects := metrics.rejectedProjects + 1 }
  let metrics := { metrics with totalProjectViews := metrics.totalProjectViews + project.views }
  { metrics with totalProjectLikes := metrics.totalProjectLikes + project.likes.length }

/-- The function `calculateUserMetrics`; `now` is `Date.now()`. -/
def calculateUserMetrics (now : Int) (user : User) (projects : List Project) : UserMetrics :=
  let metrics : UserMetrics :=
    { totalProjects := projects.length
      approvedProjects := 0
      pendingProjects := 0
      rejectedProjects := 0
      totalProjectViews := 0
      totalProjectLikes := 0
      avgProjectEngagement := 0
      joinDate := user.joinDate
      daysSinceJoin := Int.fdiv (now - user.joinDate) (1000 * 60 * 60 * 24) }
  let metrics := projects.foldl metricsStep metrics
  if projects.length > 0 then
    { metrics with
      avgProjectEngagement := (metrics.totalProjectViews : ℚ) / (projects.length : ℚ) }
  else metrics

/-- One entry of the leaderboard. -/
structure LeaderboardEntry where
  id : Id
  fullName : String
  avatar : String
  score : Int
  projectCount : Nat
  totalLikes : Nat
  totalViews : Int
deriving DecidableEq, Repr

/-- The first loop over the projects in `generateLeaderboard`: the key of
each project is `project.owner.toString()`, which fails on a `null` owner. -/
def ownerKeys : List ProjectDoc → Except JsError (List (String × Project))
  | [] => .ok []
  | d :: ds =>
    match ownerToString d.owner with
    | .error e => .error e
    | .ok ownerId =>
      match ownerKeys ds with
      | .error e => .error e
      | .ok rest => .ok ((ownerId, d.doc) :: rest)

/-- The body of the scoring loop of `generateLeaderboard`. -/
def scoreStep (score : Int) (project : Project) : Int :=
  let score := score + (project.likes.length : Int) * 2
  let score := score + Int.fdiv project.views 10
  let score := if project.featured then score + 10 else score
  if project.status = .approved then score + 5 else score

/-- The entry computed for one member from the keyed projects. -/
def leaderboardEntry (keyed : List (String × Project)) (user : User) : LeaderboardEntry :=
  let userProjects := (keyed.filter (fun kp => kp.1 == user.id)).map (fun kp => kp.2)
  { id := user.id
    fullName := user.fullName
    avatar := user.avatar
    score := userProjects.foldl scoreStep 0
    projectCount := userProjects.length
    totalLikes := userProjects.foldl (fun sum proj => sum + proj.likes.length) 0
    totalViews := userProjects.foldl (fun sum proj => sum + proj.views) 0 }

/-- The function `generateLeaderboard`: the projects are keyed by the text
of their owner path, each member gets the projects filed under the text of
the member's id, and the entries are sorted by score, highest first. -/
def generateLeaderboard (users : List User) (projects : List ProjectDoc) :
    Except JsError (List LeaderboardEntry) :=
  match ownerKeys projects with
  | .error e => .error e
  | .ok keyed =>
    .ok ((users.map (leaderboardEntry keyed)).insertionSort (fun a b => b.score ≤ a.score))

/-- The score of a member as the specification words it: the sum, over the
projects owned by the member, of two points per like, one point per ten
views, ten points if featured and five if approved. -/
def specMemberScore (memberId : Id) (projects : List Project) : Int :=
  ((projects.filter (fun p => p.owner == memberId)).map
    (fun p => 2 * (p.likes.length : Int) + Int.fdiv p.views 10
      + (if p.featured then 10 else 0) + (if p.status = .approved then 5 else 0))).sum

/-! ## Response formatting (`formatProjectResponse`) -/

/-- The argument of `formatProjectResponse`: a project with the member
record in its owner path (`none` when the path is empty) and the member
records of its collaborators. -/
structure PopulatedProject where
  doc : Project
  owner : Option User
  collaborators : List User
deriving DecidableEq, Repr

/-- The object returned by `formatProjectResponse`; `collaborators` is
absent when the project has none. -/
structure FormattedProject where
  id : Id
  title : String
  description : String
  category : String
  tags : List String
  githubUrl : Option String
  demoUrl : Option String
  teamMembers : List String
  technologies : String
  challenges : Option String
  achievements : Option String
  status : Status
  likes : Nat
  views : Int
  featured : Bool
  createdAt : Int
  updatedAt : Int
  owner : Option OwnerSummary
  collaborators : Option (List OwnerSummary)
deriving DecidableEq, Repr

/-- The four fields copied from a member record into a response. -/
def summarize (u : User) : OwnerSummary :=
  { id := u.id, fullName := u.fullName, email := u.email, avatar := u.avatar }

/-- The function `formatProjectResponse`; the argument is `none` for a
falsy `project`. -/
def formatProjectResponse (project : Option PopulatedProject) (includeOwner : Bool) :
    Option FormattedProject :=
  match project with
  | none => none
  | some project =>
    some
      { id := project.doc.id
        title := project.doc.title
        description := project.doc.description
        category := project.doc.category
        tags := project.doc.tags
        githubUrl := project.doc.githubUrl
        demoUrl := project.doc.demoUrl
        teamMembers := project.doc.teamMembers
        technologies := project.doc.technologies
        challenges := project.doc.challenges
        achievements := project.doc.achievements
        status := project.doc.status
        likes := project.doc.likes.length
        views := project.doc.views
        featured := project.doc.featured
        createdAt := project.doc.createdAt
        updatedAt := project.doc.updatedAt
        owner := if includeOwner then project.owner.map summarize else none
        collaborators :=
          if project.collaborators.length > 0 then some (project.collaborators.map summarize)
          else none }

/-! ## Regular-expression search of the storage layer, on a fragment -/

/-- Does a pattern character match a text character under option `i`? The
wildcard `.` matches every character but the line feed. -/
def patternCharMatches (pc c : Char) : Bool :=
  if pc = '.' then c != '\n' else pc.toLower == c.toLower

/-- Does the pattern match at the start of the text? -/
def patternPrefix : List Char → List Char → Bool
  | [], _ => true
  | _ :: _, [] => false
  | pc :: ps, c :: cs => patternCharMatches pc c && patternPrefix ps cs

/-- Does the pattern match somewhere in the text? -/
def patternSearch (pattern : List Char) : List Char → Bool
  | [] => patternPrefix pattern []
  | c :: cs => patternPrefix pattern (c :: cs) || patternSearch pattern cs

/-- The characters that stand for themselves in a regular expression and
are covered here: letters, digits, the space and the comma. -/
def isPlainChar (c : Char) : Bool :=
  c.isAlphanum || c = ' ' || c = ','

/-- The search `{$regex: pattern, $options: 'i'}` for a pattern made of
plain characters and the wildcard `.`; `none` for every other pattern,
which this fragment does not cover. -/
def regexSearchI (pattern text : String) : Option Bool :=
  if pattern.toList.all (fun c => isPlainChar c || c = '.') then
    some (patternSearch pattern.toList text.toList)
  else none

/-- Is the needle a contiguous part of the text? -/
def infixSearch (needle : List Char) : List Char → Bool
  | [] => needle.isPrefixOf []
  | c :: cs => needle.isPrefixOf (c :: cs) || infixSearch needle cs

/-- Containment as a case-insensitive substring, as the specification words
the technology filter. -/
def containsIgnoreCase (text t : String) : Bool :=
  infixSearch (t.toList.map Char.toLower) (text.toList.map Char.toLower)

/-- The matchers of the storage layer with the regular-expression search of
the fragment; a pattern outside the fragment matches nothing here. -/
def fragmentMatchers : Matchers :=
  { textSearch := fun _ _ => true
    regexI := fun v text =>
      match v with
      | .str t => (regexSearchI t text).getD false
      | _ => false
    invalidDate := fun _ => false
    operators := fun _ _ => false
    rejects := fun _ => none
    castFilter := fun q => .ok q
    invalidDateMessage := "Cast to date failed for value \"Invalid Date\" at path \"createdAt\"" }

/-! ## Sequences of moderation calls -/

/-- One moderation call: which handler, and the clock at the call. -/
inductive Decision where
  | approve (now : Int)
  | reject (now : Int)
deriving DecidableEq, Repr

/-- The status a moderation call writes. -/
def Decision.target : Decision → Status
  | .approve _ => .approved
  | .reject _ => .rejected

/-- The store after one moderation call on a project. -/
def moderate (deliver : Notification → Bool) (id : IdParam) (s : Store) : Decision → Store
  | .approve now => (approveProject deliver now s id).store
  | .reject now => (rejectProject deliver now s id).store

/-- The store after a sequence of moderation calls on a project. -/
def moderateAll (deliver : Notification → Bool) (id : IdParam) (s : Store)
    (calls : List Decision) : Store :=
  calls.foldl (moderate deliver id) s

/-- The status written by the last call of a sequence, or the initial one
when the sequence is empty. -/
def lastTarget (initial : Status) (calls : List Decision) : Status :=
  calls.foldl (fun _ c => c.target) initial

/-! ## Sample data used by the concrete instances -/

/-- The projects listed by a reply (none when the reply is not a listing). -/
def Reply.listed : Reply → List ListedProject
  | .sent { status := _, body := .listing _ _ _ data } => data
  | _ => []

/-- A sample member with role `member`. -/
def alice : User :=
  { id := "u1", fullName := "Alice", email := "alice@club.org", password := "hash-a"
    avatar := "", role := .member, isActive := true }

/-- A sample member with role `admin`. -/
def root : User :=
  { id := "u9", fullName := "Root", email := "root@club.org", password := "hash-r"
    avatar := "", role := .admin, isActive := true }

/-- A sample token check: `tok-a` belongs to `alice`, `tok-r` to `root`. -/
def sampleVerify : String → Except JwtFailure Id := fun t =>
  if t = "tok-a" then .ok "u1" else if t = "tok-r" then .ok "u9" else .error .invalid

/-- A sample project of `alice`, in status `pending`. -/
def sampleProject : Project :=
  { id := "p1", title := "Robot arm"
    description := "A six-axis robot arm driven by a microcontroller and a phone."
    category := "IoT", tags := ["robot"], githubUrl := none, demoUrl := none
    teamMembers := [], technologies := "C, Arduino", challenges := none, achievements := none
    owner := "u1", collaborators := [], status := .pending, likes := [], views := 0
    featured := false, isPublic := true, createdAt := 1000, updatedAt := 1000 }

/-- A sample store: two members and one pending project. -/
def sampleStore : Store := { users := [alice, root], projects := [sampleProject] }

/-- A sample store whose only project is already approved. -/
def approvedStore : Store :=
  { users := [alice, root], projects := [{ sampleProject with status := .approved }] }

/-- A sample store whose project refers to an owner that is not stored. -/
def orphanStore : Store := { users := [root], projects := [sampleProject] }

/-- A sample text matcher that accepts everything. -/
def sampleMatchers : Matchers :=
  { textSearch := fun _ _ => true, regexI := fun _ _ => true, invalidDate := fun _ => false
    operators := fun _ _ => true, rejects := fun _ => none, castFilter := fun q => .ok q
    invalidDateMessage := "Cast to date failed for value \"Invalid Date\" at path \"createdAt\"" }

/-- A sample valid creation body that also carries a `status` field. -/
def sampleBody : ProjectBody :=
  { title := some "Robot arm"
    description := some "A six-axis robot arm driven by a microcontroller and a phone."
    category := some "IoT", technologies := some "C, Arduino", status := some "approved" }

/-- A sample member with role `member` who owns no project. -/
def bob : User :=
  { id := "u2", fullName := "Bob", email := "bob@club.org", password := "hash-b"
    avatar := "", role := .member, isActive := true }

/-- A sample store with three members and the pending project of `alice`. -/
def clubStore : Store := { users := [alice, bob, root], projects := [sampleProject] }

/-- A sample token check for the three members of `clubStore`. -/
def clubVerify : String → Except JwtFailure Id := fun t =>
  if t = "tok-a" then .ok "u1" else if t = "tok-b" then .ok "u2"
  else if t = "tok-r" then .ok "u9" else .error .invalid

/-- A sample creation body whose title is longer than 100 characters before
trimming: nine letters followed by 96 spaces. -/
def paddedBody : ProjectBody :=
  { title := some ("Robot arm" ++ String.mk (List.replicate 96 ' '))
    description := some "A six-axis robot arm driven by a microcontroller and a phone."
    category := some "IoT", technologies := some "C, Arduino" }

/-- A sample creation body that carries a `likes` field with a repeated
member. -/
def likedBody : ProjectBody :=
  { title := some "Robot arm"
    description := some "A six-axis robot arm driven by a microcontroller and a phone."
    category := some "IoT", technologies := some "C, Arduino", likes := some ["u2", "u2"] }

/-- A sample project of `alice`: approved, featured, 3 likes, 25 views. -/
def starProject : Project :=
  { sampleProject with
    status := .approved, featured := true, likes := ["u2", "u9", "u7"], views := 25 }

/-- The sample project `starProject` as `Project.find` returns it: the find
hook has populated the owner path with the record of `alice`. -/
def starFound : ProjectDoc :=
  { doc := starProject
    owner := .populated
      (some { id := "u1", fullName := "Alice", email := "alice@club.org", avatar := "" }) }

/-- A sample storage layer for update operators: a lone `$set` of the
`status` path to a value of the enum, with no field beside it, is applied;
every other update with operators is refused. -/
def sampleOperate : Operate := fun operators fields now p =>
  match operators with
  | [("$set", [("status", value)])] =>
    match Status.parse value with
    | some st =>
      if fields = {} then .ok { p with status := st, updatedAt := now }
      else .error { name := "MongoError", message := "Updating the path would create a conflict" }
    | none =>
      .error (validationError ["Status must be either pending, approved, or rejected"])
  | _ => .error { name := "MongoError", message := "Unknown modifier" }

/-! ## Theorems -/

/-- The message of an `ApiError`. -/
theorem ApiError_message (message : String) (code : Nat) :
    (ApiError message code).message = message := rfl

/-- An `ApiError` with a status code from 100 to 999 is answered with the
envelope and its status code. -/
theorem answerError_ApiError (message : String) (code : Nat) (h₁ : 100 ≤ code)
    (h₂ : code ≤ 999) :
    answerError (ApiError message code)
      = { status := code, body := .failure (strOr message "Server Error") } := by
  have h0 : code ≠ 0 := by omega
  have hr : ¬ (code < 100 ∨ 999 < code) := by omega
  simp [answerError, globalErrorHandler, ApiError, bind, Except.bind, pure, Except.pure, codeOr,
    h0, hr]

/-- Whenever `globalErrorHandler` returns, what it wrote is the envelope
`{success: false, error}`. -/
theorem globalErrorHandler_envelope (e : JsError) (r : Response)
    (h : globalErrorHandler e = .ok r) : ∃ text, r.body = .failure text := by
  unfold globalErrorHandler at h
  simp only [bind, Except.bind, pure, Except.pure] at h
  repeat' split at h
  all_goals first
    | (simp only [Except.ok.injEq] at h; subst h; exact ⟨_, rfl⟩)
    | (exact absurd h (by simp))

/-- The value of `n || 500` on a status code is a status the runtime
accepts when the code is absent, zero or such a status. -/
theorem codeOr_valid (n : Option Nat) (h : ∀ k, n = some k → k = 0 ∨ (100 ≤ k ∧ k ≤ 999)) :
    ¬ (codeOr n 500 < 100 ∨ 999 < codeOr n 500) := by
  unfold codeOr
  cases n with
  | none => simp
  | some k =>
    rcases h k rfl with h0 | h1
    · simp [h0]
    · have : k ≠ 0 := by omega
      simp only [this, if_false]
      omega

/-- When `globalErrorHandler` throws: it read the keys of an absent
`keyValue`, or the values of an absent `errors`, or the runtime refused the
status code of the error. -/
theorem globalErrorHandler_error (e err : JsError) (h : globalErrorHandler e = .error err) :
    (e.code = some 11000 ∧ e.keyValue = none) ∨ (e.name = "ValidationError" ∧ e.errors = none)
    ∨ ∃ k, e.statusCode = some k ∧ k ≠ 0 ∧ (k < 100 ∨ 999 < k) := by
  by_cases hk : e.code = some 11000 ∧ e.keyValue = none
  · exact Or.inl hk
  by_cases hv : e.name = "ValidationError" ∧ e.errors = none
  · exact Or.inr (Or.inl hv)
  right; right
  by_contra hs
  have hvalid : ∀ k, e.statusCode = some k → k = 0 ∨ (100 ≤ k ∧ k ≤ 999) := by
    intro k hk'
    by_contra hc
    apply hs
    refine ⟨k, hk', ?_, ?_⟩ <;> omega
  have hcv := codeOr_valid e.statusCode hvalid
  unfold globalErrorHandler at h
  simp only [bind, Except.bind, pure, Except.pure] at h
  repeat' split at h
  all_goals simp_all [codeOr]

/-- The status written by `globalErrorHandler` for an error whose own status
code is absent, zero or an error status is an error status. -/
theorem globalErrorHandler_status (e : JsError) (r : Response)
    (h : globalErrorHandler e = .ok r)
    (hs : ∀ k, e.statusCode = some k → k = 0 ∨ (400 ≤ k ∧ k ≤ 599)) :
    400 ≤ r.status ∧ r.status ≤ 599 := by
  have hc : 400 ≤ codeOr e.statusCode 500 ∧ codeOr e.statusCode 500 ≤ 599 := by
    unfold codeOr
    cases hsc : e.statusCode with
    | none => simp
    | some k =>
      rcases hs k hsc with h0 | h1
      · simp [h0]
      · have : k ≠ 0 := by omega
        simp only [this, if_false]
        exact h1
  unfold globalErrorHandler at h
  simp only [bind, Except.bind, pure, Except.pure] at h
  repeat' split at h
  all_goals first
    | (simp only [Except.ok.injEq] at h; subst h; first | exact hc | (simp [codeOr]))
    | (simp at h)

/-- The answer to an error is the envelope or the framework's page. -/
theorem answerError_body (e : JsError) :
    (answerError e).body = .page ∨ ∃ text, (answerError e).body = .failure text := by
  unfold answerError
  cases h : globalErrorHandler e with
  | error _ => left; rfl
  | ok r => right; exact globalErrorHandler_envelope e r h

/-- Every element of the pipeline's output is the projection of a stored
project that satisfies the query. -/
theorem listingPipeline_sound (M : Matchers) (s : Store) (q : Query) (skip limit : Int)
    (data : List ListedProject) (h : listingPipeline M s q skip limit = .ok data)
    (x : ListedProject) (hx : x ∈ data) :
    ∃ p ∈ s.projects, q.matches M p = true ∧ x = listProject s p := by
  unfold listingPipeline at h
  split at h
  · exact absurd h (by simp)
  split_ifs at h
  simp only [Except.ok.injEq] at h
  subst h
  have h1 := List.mem_of_mem_drop (List.mem_of_mem_take hx)
  unfold matchedSorted at h1
  have h2 := (List.perm_insertionSort _ _).subset h1
  simp only [List.mem_map, List.mem_filter] at h2
  obtain ⟨p, ⟨hp, hm⟩, rfl⟩ := h2
  exact ⟨p, hp, hm, rfl⟩

/-- The status conjunct of a query decides the status of what it matches. -/
theorem matches_status (M : Matchers) (q : Query) (p : Project) (h : q.matches M p = true) :
    p.status = q.status := by
  unfold Query.matches at h
  simp only [Bool.and_eq_true, decide_eq_true_eq] at h
  exact h.1.1.1.1.1

/-- The query built from any filters has status `approved`. -/
theorem buildProjectQuery_status (parseDate : String → Option Int) (filters : Filters) :
    (buildProjectQuery parseDate filters).status = .approved := by
  unfold buildProjectQuery
  simp only
  split_ifs <;> rfl

/-- C1: for every filters object the predicate built by `buildProjectQuery`
has status `approved`; a stored project it matches is approved, and every
project listed by `getProjects` is approved. -/
theorem public_listing_only_approved (parseDate : String → Option Int) (M : Matchers)
    (filters : Filters) (s : Store) (req : ListRequest) :
    (buildProjectQuery parseDate filters).status = .approved
    ∧ (∀ p : Project, (buildProjectQuery parseDate filters).matches M p = true →
        p.status = .approved)
    ∧ (∀ x ∈ (getProjects M parseDate s req).listed, x.status = .approved) := by
  refine ⟨buildProjectQuery_status parseDate filters, ?_, ?_⟩
  · intro p hp
    rw [matches_status M _ p hp, buildProjectQuery_status]
  · intro x hx
    unfold getProjects at hx
    simp only at hx
    cases hpipe : listingPipeline M s (buildProjectQuery parseDate req.filters)
        ((intOr req.page 1 - 1) * intOr req.limit 10) (intOr req.limit 10) with
    | error e => simp [hpipe, Reply.listed] at hx
    | ok projects =>
      cases hcount : countDocuments M s (buildProjectQuery parseDate req.filters) with
      | error e => simp [hpipe, hcount, Reply.listed] at hx
      | ok total =>
        simp only [hpipe, hcount, Reply.listed] at hx
        obtain ⟨p, _, hm, rfl⟩ := listingPipeline_sound M s _ _ _ projects hpipe x hx
        simp only [listProject]
        rw [matches_status M _ p hm, buildProjectQuery_status]

/-- C1, concrete instance: with a search filter and a category filter set,
and also with an operator object as category, the built predicate has
status `approved`; the approved sample project is matched and listed as
approved, and the listing of the store with the pending project is empty. -/
theorem public_listing_only_approved_witness :
    (buildProjectQuery (fun _ => none)
        { category := .obj [("$ne", "x")], search := .str "robot" }).status = .approved
    ∧ ({ sampleProject with status := .approved } : Project).status = .approved
    ∧ (listProject approvedStore { sampleProject with status := .approved }).status = .approved
    ∧ (getProjects sampleMatchers (fun _ => none) sampleStore
        { category := .obj [("$ne", "x")], search := .str "robot" }).listed = [] :=
  have h := public_listing_only_approved (fun _ => none) sampleMatchers
    { category := .obj [("$ne", "x")], search := .str "robot" } approvedStore
    { category := .obj [("$ne", "x")], search := .str "robot" }
  ⟨h.1, h.2.1 { sampleProject with status := .approved } (by decide),
    h.2.2 (listProject approvedStore { sampleProject with status := .approved }) (by decide),
    by decide⟩

/-- The like term and the view term of the score are never negative when the
counts are not. -/
theorem base_terms_nonneg (L V : ℚ) (hL : 0 ≤ L) (hV : 0 ≤ V) :
    0 ≤ min (L * 2) 40 ∧ 0 ≤ min ((⌊V / 10⌋ : Int) : ℚ) 20 := by
  constructor
  · exact le_min (by linarith) (by norm_num)
  · refine le_min ?_ (by norm_num)
    have : 0 ≤ V / 10 := div_nonneg hV (by norm_num)
    exact_mod_cast Int.floor_nonneg.mpr this

/-- The recency bonus is never negative. -/
theorem recencyBonus_nonneg (now createdAt : Int) : 0 ≤ recencyBonus now createdAt :=
  le_max_left _ _

/-- C2: for non-negative like and view counts, any featured flag and any
creation date (past, future or invalid), the engagement score lies between
0 and 100. -/
theorem engagement_score_in_range (now : Int) (p : ScoreInput)
    (hL : 0 ≤ likesOf p.likes) (hV : 0 ≤ viewsOf p.views) :
    0 ≤ calculateEngagementScore now (some p) ∧ calculateEngagementScore now (some p) ≤ 100 := by
  obtain ⟨h1, h2⟩ := base_terms_nonneg _ _ hL hV
  unfold calculateEngagementScore
  simp only
  refine ⟨le_min ?_ (by norm_num), min_le_right _ _⟩
  cases hc : p.createdAt with
  | none =>
    simp only
    split_ifs <;> linarith
  | some c =>
    simp only
    have h3 := recencyBonus_nonneg now c
    split_ifs <;> linarith

/-- C2, concrete instance: a featured project with three likes and 250
views created ten weeks in the future scores within the range. -/
theorem engagement_score_in_range_witness :
    0 ≤ calculateEngagementScore 0
        (some ⟨.arr ["u1", "u2", "u3"], .num 250, true, some 6048000000⟩)
    ∧ calculateEngagementScore 0
        (some ⟨.arr ["u1", "u2", "u3"], .num 250, true, some 6048000000⟩) ≤ 100 :=
  engagement_score_in_range 0 ⟨.arr ["u1", "u2", "u3"], .num 250, true, some 6048000000⟩
    (by simp [likesOf]) (by simp [viewsOf])

/-- For counts that are not negative and a valid creation date the scorer
computes the specified formula at the counts it reads and the age it
computes. -/
theorem calculateEngagementScore_spec (now createdAt : Int) (likes : LikesValue)
    (views : ViewsValue) (featured : Bool) (hL : 0 ≤ likesOf likes) (hV : 0 ≤ viewsOf views) :
    calculateEngagementScore now (some ⟨likes, views, featured, some createdAt⟩)
      = specEngagementScore (likesOf likes) (viewsOf views) featured
          (daysSinceCreation now createdAt) := by
  obtain ⟨h1, h2⟩ := base_terms_nonneg _ _ hL hV
  have h3 := recencyBonus_nonneg now createdAt
  unfold calculateEngagementScore specEngagementScore
  simp only [recencyBonus] at h3 ⊢
  rw [mul_comm 2 (likesOf likes)]
  cases featured
  · simp only [Bool.false_eq_true, if_false, zero_add, add_zero]
    rw [max_eq_right (le_min (by norm_num) (by linarith)), min_comm]
  · simp only [if_true, zero_add]
    rw [max_eq_right (le_min (by norm_num) (by linarith)), min_comm]

/-- C3: for a like count `L` that is not negative (given as a number, or as
an array of likes, whose count is its length), a view count `V` that is not
negative, a featured flag and a valid creation date lying `d` days before
`now`, the score is `min(2L, 40) + min(floor(V/10), 20) + (20 if featured)
+ max(0, 20 - d/7)` clamped to the range 0 to 100; likes=5, views=120,
featured, created now gives exactly 62. -/
theorem engagement_score_formula (now createdAt : Int) (L V d : ℚ) (ids : List Id)
    (featured : Bool) (hL : 0 ≤ L) (hV : 0 ≤ V)
    (hd : ((now - createdAt : Int) : ℚ) = d * (24 * 60 * 60 * 1000)) :
    calculateEngagementScore now (some ⟨.num L, .num V, featured, some createdAt⟩)
      = max 0 (min 100
          (min (2 * L) 40 + min ((⌊V / 10⌋ : Int) : ℚ) 20 + (if featured then 20 else 0)
            + max 0 (20 - d / 7)))
    ∧ calculateEngagementScore now (some ⟨.arr ids, .num V, featured, some createdAt⟩)
      = max 0 (min 100
          (min (2 * (ids.length : ℚ)) 40 + min ((⌊V / 10⌋ : Int) : ℚ) 20
            + (if featured then 20 else 0) + max 0 (20 - d / 7)))
    ∧ calculateEngagementScore now (some ⟨.num L, .num V, featured, some createdAt⟩)
      = specEngagementScore L V featured d
    ∧ calculateEngagementScore now (some ⟨.num 5, .num 120, true, some now⟩) = 62 := by
  have hdays : daysSinceCreation now createdAt = d := by
    unfold daysSinceCreation
    rw [hd, mul_div_assoc]
    norm_num
  have hnum := calculateEngagementScore_spec now createdAt (.num L) (.num V) featured
    (by simpa [likesOf] using hL) (by simpa [viewsOf] using hV)
  have harr := calculateEngagementScore_spec now createdAt (.arr ids) (.num V) featured
    (by simp [likesOf]) (by simpa [viewsOf] using hV)
  rw [hdays] at hnum harr
  refine ⟨hnum, harr, hnum, ?_⟩
  norm_num [calculateEngagementScore, likesOf, viewsOf, recencyBonus, daysSinceCreation]

/-- C3, concrete instance: a featured project with 120 views created 14
days before now scores 10 + 12 + 20 + 18 = 60 with five likes given as a
number and 6 + 12 + 20 + 18 = 56 with an array of three likes. -/
theorem engagement_score_formula_witness :
    calculateEngagementScore 1209600000 (some ⟨.num 5, .num 120, true, some 0⟩) = 60
    ∧ calculateEngagementScore 1209600000
        (some ⟨.arr ["u1", "u2", "u3"], .num 120, true, some 0⟩) = 56 := by
  have h := engagement_score_formula 1209600000 0 5 120 14 ["u1", "u2", "u3"] true
    (by norm_num) (by norm_num) (by norm_num)
  refine ⟨?_, ?_⟩
  · rw [h.1]
    norm_num
  · rw [h.2.1]
    norm_num

/-- Membership after one like toggle. -/
theorem mem_toggleLike (likes : List Id) (userId m : Id) :
    m ∈ toggleLike likes userId ↔
      if userId ∈ likes then (m ∈ likes ∧ m ≠ userId) else (m ∈ likes ∨ m = userId) := by
  unfold toggleLike
  by_cases h : userId ∈ likes
  · have : likes.any (fun like => like == userId) = true := by
      simp only [List.any_eq_true, beq_iff_eq]
      exact ⟨userId, h, rfl⟩
    simp [this, h]
  · have : likes.any (fun like => like == userId) = false := by
      simp only [List.any_eq_false, beq_iff_eq]
      intro x hx hxe
      exact h (hxe ▸ hx)
    simp [this, h]

/-- Two like toggles by one member restore every membership. -/
theorem mem_toggleLike_twice (likes : List Id) (userId m : Id) :
    m ∈ toggleLike (toggleLike likes userId) userId ↔ m ∈ likes := by
  rw [mem_toggleLike]
  by_cases h : userId ∈ likes
  · have hnot : userId ∉ toggleLike likes userId := by
      rw [mem_toggleLike]; simp [h]
    rw [if_neg hnot, mem_toggleLike, if_pos h]
    constructor
    · rintro (⟨hm, _⟩ | rfl)
      · exact hm
      · exact h
    · intro hm
      by_cases hmu : m = userId
      · exact Or.inr hmu
      · exact Or.inl ⟨hm, hmu⟩
  · have hin : userId ∈ toggleLike likes userId := by
      rw [mem_toggleLike]; simp [h]
    rw [if_pos hin, mem_toggleLike, if_neg h]
    constructor
    · rintro ⟨hm | hm, hne⟩
      · exact hm
      · exact absurd hm hne
    · intro hm
      refine ⟨Or.inl hm, ?_⟩
      rintro rfl
      exact h hm

/-- Lookup by id after a document was replaced. -/
theorem find_replaceProject (ps : List Project) (doc : Project) (pid : Id) :
    (replaceProject ps doc).find? (fun p => p.id == pid)
      = if pid = doc.id then (ps.find? (fun p => p.id == pid)).map (fun _ => doc)
        else ps.find? (fun p => p.id == pid) := by
  induction ps with
  | nil => simp [replaceProject]
  | cons p ps ih =>
    unfold replaceProject
    by_cases hp : p.id = doc.id
    · by_cases hd : pid = doc.id
      · simp [hp, hd]
      · have : ¬ doc.id = pid := fun h => hd h.symm
        simp [hp, hd, this, List.find?_cons]
    · by_cases hd : pid = doc.id
      · subst hd
        simp [hp, List.find?_cons, ih]
      · by_cases hpp : p.id = pid
        · simp [hp, hd, hpp, List.find?_cons]
        · simp [hp, hd, hpp, List.find?_cons, ih]

/-- A project found by id has that id. -/
theorem findProject_id (s : Store) (pid : Id) (p : Project) (h : s.findProject pid = some p) :
    p.id = pid := by
  unfold Store.findProject at h
  have := List.find?_some h
  simpa using this

/-- The store left by one call of the mounted `likeProject`. -/
theorem likeProject_store (now : Int) (s : Store) (pid : Id) (user : User) :
    (mounted s (likeProject now s (.objectId pid) user true)).store
      = match s.findProject pid with
        | some p => s.saveProject { p with likes := toggleLike p.likes user.id, updatedAt := now }
        | none => s := by
  unfold likeProject findById
  cases h : s.findProject pid <;> simp [h, mounted, callNext, errorOutcome, Except.map]

/-- Lookup by id in the store after a save. -/
theorem findProject_saveProject (s : Store) (doc : Project) (pid : Id) :
    (s.saveProject doc).findProject pid
      = if pid = doc.id then (s.findProject pid).map (fun _ => doc) else s.findProject pid := by
  unfold Store.saveProject Store.findProject
  exact find_replaceProject s.projects doc pid

/-- C4: two like toggles by the same member leave every member's membership
as it was, on a bare likes collection and on the stored likes of every
project after two calls of `likeProject`; from empty likes the first toggle
of member A gives the collection with A alone and the second gives the
empty collection. -/
theorem like_toggle_involution (likes : List Id) (userId m : Id) (now₁ now₂ : Int) (s : Store)
    (id : IdParam) (user : User) (pid : Id) :
    (m ∈ toggleLike (toggleLike likes userId) userId ↔ m ∈ likes)
    ∧ (((mounted (mounted s (likeProject now₁ s id user true)).store
          (likeProject now₂ (mounted s (likeProject now₁ s id user true)).store id user
            true)).store.findProject pid).map (fun p => decide (m ∈ p.likes))
        = (s.findProject pid).map (fun p => decide (m ∈ p.likes)))
    ∧ toggleLike [] "A" = ["A"] ∧ toggleLike (toggleLike [] "A") "A" = [] := by
  refine ⟨mem_toggleLike_twice likes userId m, ?_, by decide, by decide⟩
  cases id with
  | malformed raw => simp [likeProject, mounted, callNext, errorOutcome, Except.map, castError]
  | objectId q =>
    rw [likeProject_store now₁ s q user]
    cases h : s.findProject q with
    | none =>
      simp only
      rw [likeProject_store now₂ s q user, h]
    | some p =>
      simp only
      have hid : p.id = q := findProject_id s q p h
      rw [likeProject_store now₂]
      rw [findProject_saveProject s _ q]
      simp only [hid, if_true, h, Option.map_some']
      rw [findProject_saveProject, findProject_saveProject]
      simp only [hid]
      by_cases hq : pid = q
      · subst hq
        simp only [if_true, h, Option.map_some', Option.some.injEq, decide_eq_decide]
        exact mem_toggleLike_twice p.likes user.id m
      · simp only [hq, if_false]



/-- The text of the refusal written by `authorize` is never empty. -/
theorem refusal_nonempty (r : Role) :
    strOr ("User role '" ++ r.text ++ "' is not authorized to access this route") "Server Error"
      = "User role '" ++ r.text ++ "' is not authorized to access this route" := by
  cases r <;> decide

/-- C5: for an authenticated caller whose role is not admin, an admin route
answers 403 with the refusal of `authorize('admin')` whatever the handler
is (the handler is not run); on the approve and the reject route the store
is unchanged and nothing is sent. -/
theorem non_admin_moderation_forbidden (verify : String → Except JwtFailure Id)
    (deliver : Notification → Bool) (now : Int) (s : Store) (authorization : Option String)
    (id : IdParam) (user : User) (handler : Store → Outcome)
    (hAuth : protect verify s authorization = .ok user) (hRole : user.role ≠ .admin) :
    adminRoute verify s authorization handler
      = { response := some
            { status := 403
              body := .failure
                ("User role '" ++ user.role.text ++ "' is not authorized to access this route") }
          store := s
          sent := []
          log := ["User role '" ++ user.role.text ++ "' is not authorized to access this route"] }
    ∧ (approveRoute verify deliver now s authorization id).response
        = some { status := 403
                 body := .failure
                   ("User role '" ++ user.role.text ++ "' is not authorized to access this route") }
    ∧ (approveRoute verify deliver now s authorization id).store = s
    ∧ (approveRoute verify deliver now s authorization id).sent = []
    ∧ (rejectRoute verify deliver now s authorization id).response
        = some { status := 403
                 body := .failure
                   ("User role '" ++ user.role.text ++ "' is not authorized to access this route") }
    ∧ (rejectRoute verify deliver now s authorization id).store = s
    ∧ (rejectRoute verify deliver now s authorization id).sent = [] := by
  have key : ∀ h : Store → Outcome, adminRoute verify s authorization h
      = { response := some
            { status := 403
              body := .failure
                ("User role '" ++ user.role.text ++ "' is not authorized to access this route") }
          store := s
          sent := []
          log := ["User role '" ++ user.role.text ++ "' is not authorized to access this route"] } := by
    intro h
    have hr : (["admin"].contains user.role.text) = false := by
      cases hu : user.role
      · decide
      · decide
      · exact absurd hu hRole
    unfold adminRoute
    rw [hAuth]
    simp only [authorize, hr, Bool.not_false, if_true, errorOutcome,
      answerError_ApiError _ 403 (by decide) (by decide), ApiError_message]
    simp [refusal_nonempty]
  refine ⟨key handler, ?_, ?_, ?_, ?_, ?_, ?_⟩ <;> simp only [approveRoute, rejectRoute, key]

/-- C5, concrete instance: the member `alice` is refused on the approve
route and the sample project stays pending. -/
theorem non_admin_moderation_forbidden_witness :
    (approveRoute sampleVerify (fun _ => true) 2000 sampleStore (some "Bearer tok-a")
        (.objectId "p1")).response
      = some { status := 403
               body := .failure "User role 'member' is not authorized to access this route" }
    ∧ (approveRoute sampleVerify (fun _ => true) 2000 sampleStore (some "Bearer tok-a")
        (.objectId "p1")).store = sampleStore :=
  have h := non_admin_moderation_forbidden sampleVerify (fun _ => true) 2000 sampleStore
    (some "Bearer tok-a") (.objectId "p1") alice (fun s => { response := none, store := s })
    (by rfl) (by decide)
  ⟨h.2.1, h.2.2.1⟩

/-- The setters leave the `status` field of a body alone. -/
theorem applySetters_status (body : ProjectBody) : (applySetters body).status = body.status := rfl

/-- A body that passes the schema validators carries no status outside the
enum. -/
theorem schemaErrors_status (isURL : String → Bool) (required : Bool) (body : ProjectBody)
    (h : schemaErrors isURL required body = []) (st : String) (hst : body.status = some st) :
    (Status.parse st).isSome = true := by
  unfold schemaErrors at h
  simp only [List.append_eq_nil, hst] at h
  have h2 := h.1.2
  by_contra hc
  simp [hc] at h2

/-- The document stored by a successful `Project.create`. -/
theorem createDocument_ok (isURL : String → Bool) (newId : Id) (now : Int) (s : Store)
    (body : ProjectBody) (p : Project) (s' : Store)
    (h : createDocument isURL newId now s body = .ok (p, s')) :
    schemaErrors isURL true (applySetters body) = []
    ∧ p.status = (body.status.bind Status.parse).getD .pending
    ∧ s' = { s with projects := s.projects ++ [p] } := by
  unfold createDocument at h
  simp only at h
  split at h
  · next herr =>
    simp only [Except.ok.injEq, Prod.mk.injEq] at h
    obtain ⟨hp, hs⟩ := h
    subst hp
    exact ⟨herr, rfl, hs.symm⟩
  · simp at h

/-- C6 (as amended): a create request answered with 201 stores the returned
project, appended to the collection; its status is `pending` when the body
carries no status field, and the status named by the body otherwise. -/
theorem created_status_default_pending (verify : String → Except JwtFailure Id)
    (isURL : String → Bool) (newId : Id) (now : Int) (s : Store) (authorization : Option String)
    (body : ProjectBody) (doc : ProjectDoc)
    (h : (createRoute verify isURL newId now s authorization body).response
      = some { status := 201, body := .document doc }) :
    (createRoute verify isURL newId now s authorization body).store
      = { s with projects := s.projects ++ [doc.doc] }
    ∧ (body.status = none → doc.doc.status = .pending)
    ∧ (∀ st, body.status = some st → Status.parse st = some doc.doc.status) := by
  unfold createRoute at h ⊢
  cases hp : protect verify s authorization with
  | error e =>
    simp only [hp, errorOutcome, Option.some.injEq] at h
    rcases answerError_body e with hb | ⟨t, hb⟩ <;> rw [h] at hb <;> simp at hb
  | ok user =>
    simp only [hp] at h ⊢
    have hvs : (validateCreate body).2.status = body.status := rfl
    rcases hv : validateCreate body with ⟨errors, vbody⟩
    rw [hv] at hvs
    simp only at hvs
    cases errors with
    | cons e es => simp [hv] at h
    | nil =>
      simp only [hv] at h ⊢
      unfold createProject at h ⊢
      simp only at h ⊢
      cases hc : createDocument isURL newId now s { vbody with owner := some user.id } with
      | error e => simp [hc, callNext, Except.map] at h
      | ok r =>
        obtain ⟨p, s'⟩ := r
        obtain ⟨herr, hst, hs⟩ := createDocument_ok _ _ _ _ _ _ _ hc
        simp only [hc, Reply.response, Option.some.injEq, Response.mk.injEq, Body.document.injEq,
          true_and] at h ⊢
        subst h
        simp only at hst
        rw [hvs] at hst
        refine ⟨hs, ?_, ?_⟩
        · intro hn
          rw [hst, hn]
          rfl
        · intro st hsome
          have hv2 : (applySetters { vbody with owner := some user.id }).status = some st := by
            rw [applySetters_status]
            simp only
            rw [hvs, hsome]
          have := schemaErrors_status isURL true _ herr st hv2
          rw [hst, hsome]
          cases hps : Status.parse st with
          | none => simp [hps] at this
          | some v => simp [hps]

/-- C6, concrete instance: the sample body without its status field is
stored as a pending project. -/
theorem created_status_default_pending_witness :
    ((createRoute sampleVerify (fun _ => true) "p2" 5000 sampleStore (some "Bearer tok-a")
        { sampleBody with status := none }).store.projects.map (fun p => (p.id, p.status)))
      = [("p1", .pending), ("p2", .pending)] := by
  have h := created_status_default_pending sampleVerify (fun _ => true) "p2" 5000 sampleStore
    (some "Bearer tok-a") { sampleBody with status := none }
    { doc := { sampleProject with
                id := "p2", tags := [], createdAt := 5000, updatedAt := 5000 }
      owner := .ref "u1" } (by rfl)
  rw [h.1]
  decide

/-- C6, counterexample: a valid create request whose body carries
`status: 'approved'` is answered with 201 and stored as an approved
project, not a pending one. -/
theorem created_status_counterexample :
    (createRoute sampleVerify (fun _ => true) "p2" 5000 sampleStore (some "Bearer tok-a")
        sampleBody).response.map (fun r => r.status) = some 201
    ∧ ((createRoute sampleVerify (fun _ => true) "p2" 5000 sampleStore (some "Bearer tok-a")
        sampleBody).store.findProject "p2").map (fun p => p.status) = some .approved := by
  constructor <;> decide

/-- The document written by a successful update without operators keeps
the id; its status is the one named by the body, or the old one when the
body names none. -/
theorem setFields_ok (isURL : String → Bool) (now : Int) (p : Project) (body : ProjectBody)
    (doc : Project) (h : setFields isURL now p body = .ok doc) :
    doc.id = p.id ∧ doc.status = (body.status.bind Status.parse).getD p.status := by
  unfold setFields at h
  simp only at h
  split at h
  · simp only [Except.ok.injEq] at h
    subst h
    exact ⟨rfl, rfl⟩
  · simp at h

/-- The store left by the update route: untouched, or one found project
replaced by its updated document. -/
theorem updateRoute_store (operate : Operate) (verify : String → Except JwtFailure Id)
    (isURL : String → Bool) (now : Int) (s : Store) (authorization : Option String)
    (id : IdParam) (body : UpdateBody) :
    (updateRoute operate verify isURL now s authorization id body).store = s
    ∨ ∃ q p doc vbody, id = .objectId q ∧ s.findProject q = some p
        ∧ vbody.fields.status = body.fields.status ∧ vbody.operators = body.operators
        ∧ applyUpdate operate isURL now p vbody = .ok doc
        ∧ (updateRoute operate verify isURL now s authorization id body).store
          = s.saveProject doc := by
  unfold updateRoute
  cases hp : protect verify s authorization with
  | error e => left; simp [errorOutcome]
  | ok user =>
    simp only
    have hvs : (validateUpdate body).2.fields.status = body.fields.status := rfl
    have hvo : (validateUpdate body).2.operators = body.operators := rfl
    rcases hv : validateUpdate body with ⟨errors, vbody⟩
    rw [hv] at hvs hvo
    simp only at hvs hvo
    cases errors with
    | cons e es => left; rfl
    | nil =>
      simp only
      cases id with
      | malformed raw => left; simp [updateProject, castError, callNext, Except.map]
      | objectId q =>
        unfold updateProject findById
        cases hf : s.findProject q with
        | none => left; simp [hf, callNext, Except.map, nextIsNotAFunction]
        | some p =>
          simp only [hf, Option.map_some']
          cases ho : ownerToString (OwnerField.populated (populateOwner s p)) with
          | error e =>
            left
            simp only [ho]
            split_ifs <;> simp [callNext, Except.map]
          | ok ownerText =>
            simp only [ho]
            by_cases hperm : (ownerText != user.id && user.role != .admin) = true
            · left
              simp [hperm, callNext, Except.map, nextIsNotAFunction]
            · simp only [hperm]
              cases ha : applyUpdate operate isURL now p vbody with
              | error e =>
                left
                simp only [ha]
                split_ifs <;> simp [callNext, Except.map]
              | ok doc =>
                right
                exact ⟨q, p, doc, vbody, rfl, hf, hvs, hvo, ha, by simp [ha]⟩

/-- C7 (as amended): an update request whose body carries no status field
and no update operator leaves the status of every stored project as it was,
whoever sends it and whatever the storage layer makes of operators. -/
theorem update_without_status_keeps_status (operate : Operate)
    (verify : String → Except JwtFailure Id) (isURL : String → Bool) (now : Int) (s : Store)
    (authorization : Option String) (id : IdParam) (body : UpdateBody) (pid : Id)
    (hbody : body.fields.status = none) (hops : body.operators = []) :
    ((updateRoute operate verify isURL now s authorization id body).store.findProject pid).map
        (fun p => p.status)
      = (s.findProject pid).map (fun p => p.status) := by
  rcases updateRoute_store operate verify isURL now s authorization id body with h | h
  · rw [h]
  · obtain ⟨q, p, doc, vbody, _, hf, hvs, hvo, ha, hs⟩ := h
    have ha' : setFields isURL now p vbody.fields = .ok doc := by
      unfold applyUpdate at ha
      rw [hvo, hops] at ha
      exact ha
    obtain ⟨hid, hst⟩ := setFields_ok isURL now p vbody.fields doc ha'
    rw [hs, findProject_saveProject]
    rw [hvs, hbody] at hst
    have hq := findProject_id s q p hf
    by_cases hpid : pid = doc.id
    · have : pid = q := by rw [hpid, hid, hq]
      subst this
      simp only [hpid, if_true]
      rw [← hpid, hf]
      simp only [Option.map_some', Option.some.injEq]
      rw [hst]
      rfl
    · simp only [hpid, if_false]

/-- C7, concrete instance: the admin renames the pending sample project and
it stays pending. -/
theorem update_without_status_keeps_status_witness :
    ((updateRoute sampleOperate sampleVerify (fun _ => true) 2000 sampleStore
        (some "Bearer tok-r") (.objectId "p1")
        { fields := { title := some "Robot arm v2" } }).store.findProject "p1").map
        (fun p => p.status)
      = (sampleStore.findProject "p1").map (fun p => p.status)
    ∧ ((updateRoute sampleOperate sampleVerify (fun _ => true) 2000 sampleStore
        (some "Bearer tok-r") (.objectId "p1")
        { fields := { title := some "Robot arm v2" } }).store.findProject "p1").map
        (fun p => p.title) = some "Robot arm v2" :=
  ⟨update_without_status_keeps_status sampleOperate sampleVerify (fun _ => true) 2000
    sampleStore (some "Bearer tok-r") (.objectId "p1")
    { fields := { title := some "Robot arm v2" } } "p1" rfl rfl, by decide⟩

/-- C7, counterexample: an update sent by an admin whose body carries
`status: 'approved'` moves the pending sample project to approved. -/
theorem update_status_counterexample :
    (sampleStore.findProject "p1").map (fun p => p.status) = some .pending
    ∧ (updateRoute sampleOperate sampleVerify (fun _ => true) 2000 sampleStore
        (some "Bearer tok-r") (.objectId "p1")
        { fields := { status := some "approved" } }).response.map (fun r => r.status)
        = some 200
    ∧ ((updateRoute sampleOperate sampleVerify (fun _ => true) 2000 sampleStore
        (some "Bearer tok-r") (.objectId "p1")
        { fields := { status := some "approved" } }).store.findProject "p1").map
        (fun p => p.status) = some .approved := by
  refine ⟨by decide, by decide, by decide⟩

/-- An update whose body carries no status field but the operator `$set`
on the `status` path, sent by an admin to a storage layer that applies
`$set`, moves the pending sample project to approved. -/
theorem update_operator_sets_status_sample :
    ({ operators := [("$set", [("status", "approved")])] } : UpdateBody).fields.status = none
    ∧ ((updateRoute sampleOperate sampleVerify (fun _ => true) 2000 sampleStore
        (some "Bearer tok-r") (.objectId "p1")
        { operators := [("$set", [("status", "approved")])] }).store.findProject "p1").map
        (fun p => p.status) = some .approved := by
  refine ⟨rfl, by decide⟩

/-- Saving a document that is already the stored one changes nothing. -/
theorem replaceProject_self (ps : List Project) (doc : Project)
    (h : ps.find? (fun p => p.id == doc.id) = some doc) : replaceProject ps doc = ps := by
  induction ps with
  | nil => rfl
  | cons p ps ih =>
    unfold replaceProject
    by_cases hp : p.id = doc.id
    · simp only [List.find?_cons, hp, beq_self_eq_true, Option.some.injEq] at h
      simp [hp, h]
    · have hb : (p.id == doc.id) = false := by simpa using hp
      simp only [List.find?_cons, hb] at h
      simp [hb, ih h]

/-- Assigning the status a document already has writes nothing. -/
theorem setStatus_same (now : Int) (p : Project) (target : Status) (h : p.status = target) :
    setStatus now p target = p := by
  unfold setStatus
  rw [if_pos h]

/-- The status assignment written out field by field. -/
theorem setStatus_eq (now : Int) (p : Project) (target : Status) :
    setStatus now p target
      = { p with status := target
                 updatedAt := if p.status = target then p.updatedAt else now } := by
  unfold setStatus
  split_ifs with h
  · cases p
    simp only at h
    subst h
    rfl
  · rfl

/-- The outcome of `approveProject` on a stored project. -/
theorem approveProject_found (deliver : Notification → Bool) (now : Int) (s : Store) (pid : Id)
    (p : Project) (h : s.findProject pid = some p) :
    (approveProject deliver now s (.objectId pid)).response
      = some { status := 200
               body := .document { doc := setStatus now p .approved
                                   owner := .populated (populateOwner s p) } }
    ∧ (approveProject deliver now s (.objectId pid)).store
        = s.saveProject (setStatus now p .approved)
    ∧ (approveProject deliver now s (.objectId pid)).sent
        = match populateOwner s p with
          | some owner =>
            [{ kind := .approval, email := owner.email, fullName := owner.fullName
               projectName := p.title, reason := none }]
          | none => [] := by
  have ht : (setStatus now p .approved).title = p.title := by
    unfold setStatus; split_ifs <;> rfl
  unfold approveProject findById
  simp only [h, Option.map_some']
  cases ho : populateOwner s p with
  | none => simp
  | some owner =>
    simp only [sendProjectApprovalEmail, ht]
    split_ifs <;> simp

/-- The outcome of `rejectProject` on a stored project. -/
theorem rejectProject_found (deliver : Notification → Bool) (now : Int) (s : Store) (pid : Id)
    (p : Project) (h : s.findProject pid = some p) :
    (rejectProject deliver now s (.objectId pid)).response
      = some { status := 200
               body := .document { doc := setStatus now p .rejected
                                   owner := .populated (populateOwner s p) } }
    ∧ (rejectProject deliver now s (.objectId pid)).store
        = s.saveProject (setStatus now p .rejected)
    ∧ (rejectProject deliver now s (.objectId pid)).sent
        = match populateOwner s p with
          | some owner =>
            [{ kind := .rejection, email := owner.email, fullName := owner.fullName
               projectName := p.title, reason := some "Did not meet community guidelines" }]
          | none => [] := by
  have ht : (setStatus now p .rejected).title = p.title := by
    unfold setStatus; split_ifs <;> rfl
  unfold rejectProject findById
  simp only [h, Option.map_some']
  cases ho : populateOwner s p with
  | none => simp
  | some owner =>
    simp only [sendProjectRejectionEmail, ht]
    split_ifs <;> simp

/-- The store after a status was set on a found project: the project holds
the target status, a second assignment of the same target writes nothing. -/
theorem saveStatus_spec (now now' : Int) (s : Store) (pid : Id) (p : Project) (target : Status)
    (h : s.findProject pid = some p) :
    (s.saveProject (setStatus now p target)).findProject pid
      = some { p with status := target
                      updatedAt := if p.status = target then p.updatedAt else now }
    ∧ (∀ other, other ≠ pid →
        (s.saveProject (setStatus now p target)).findProject other = s.findProject other)
    ∧ (s.saveProject (setStatus now p target)).users = s.users
    ∧ (s.saveProject (setStatus now p target)).saveProject
          (setStatus now' (setStatus now p target) target)
        = s.saveProject (setStatus now p target) := by
  have hid : p.id = pid := findProject_id s pid p h
  have hsid : (setStatus now p target).id = pid := by
    rw [setStatus_eq]; exact hid
  have hfind : (s.saveProject (setStatus now p target)).findProject pid
      = some (setStatus now p target) := by
    rw [findProject_saveProject, hsid, if_pos rfl, h]
    rfl
  refine ⟨?_, ?_, rfl, ?_⟩
  · rw [hfind, setStatus_eq]
  · intro other hne
    rw [findProject_saveProject, hsid, if_neg hne]
  · have hst : (setStatus now p target).status = target := by
      rw [setStatus_eq]
    have hno : setStatus now' (setStatus now p target) target = setStatus now p target :=
      setStatus_same now' _ target hst
    rw [hno]
    unfold Store.saveProject
    have := replaceProject_self (s.saveProject (setStatus now p target)).projects
      (setStatus now p target) (by rw [hsid]; exact hfind)
    simp only [Store.saveProject] at this
    rw [this]

/-- C8 (as amended): on a stored project in any status `approveProject`
answers 200 and leaves it with status `approved`, `rejectProject` with
status `rejected`; every other field is unchanged except `updatedAt`, which
is stamped when the status changes; other projects and the members are
untouched, and a second call of the same transition leaves the store as the
first one did. -/
theorem moderation_transition_idempotent (deliver deliver' : Notification → Bool)
    (now now' : Int) (s : Store) (pid : Id) (p : Project) (h : s.findProject pid = some p) :
    ((approveProject deliver now s (.objectId pid)).response.map (fun r => r.status) = some 200
      ∧ (approveProject deliver now s (.objectId pid)).store.findProject pid
          = some { p with status := .approved
                          updatedAt := if p.status = .approved then p.updatedAt else now }
      ∧ (∀ other, other ≠ pid →
          (approveProject deliver now s (.objectId pid)).store.findProject other
            = s.findProject other)
      ∧ (approveProject deliver now s (.objectId pid)).store.users = s.users
      ∧ (approveProject deliver' now' (approveProject deliver now s (.objectId pid)).store
            (.objectId pid)).store
          = (approveProject deliver now s (.objectId pid)).store)
    ∧ ((rejectProject deliver now s (.objectId pid)).response.map (fun r => r.status) = some 200
      ∧ (rejectProject deliver now s (.objectId pid)).store.findProject pid
          = some { p with status := .rejected
                          updatedAt := if p.status = .rejected then p.updatedAt else now }
      ∧ (∀ other, other ≠ pid →
          (rejectProject deliver now s (.objectId pid)).store.findProject other
            = s.findProject other)
      ∧ (rejectProject deliver now s (.objectId pid)).store.users = s.users
      ∧ (rejectProject deliver' now' (rejectProject deliver now s (.objectId pid)).store
            (.objectId pid)).store
          = (rejectProject deliver now s (.objectId pid)).store) := by
  constructor
  · obtain ⟨hr, hs, _⟩ := approveProject_found deliver now s pid p h
    obtain ⟨h1, h2, h3, h4⟩ := saveStatus_spec now now' s pid p .approved h
    rw [hs]
    refine ⟨by rw [hr]; rfl, h1, h2, h3, ?_⟩
    have hf : (s.saveProject (setStatus now p .approved)).findProject pid
        = some (setStatus now p .approved) := by rw [h1, setStatus_eq]
    rw [(approveProject_found deliver' now' _ pid _ hf).2.1]
    exact h4
  · obtain ⟨hr, hs, _⟩ := rejectProject_found deliver now s pid p h
    obtain ⟨h1, h2, h3, h4⟩ := saveStatus_spec now now' s pid p .rejected h
    rw [hs]
    refine ⟨by rw [hr]; rfl, h1, h2, h3, ?_⟩
    have hf : (s.saveProject (setStatus now p .rejected)).findProject pid
        = some (setStatus now p .rejected) := by rw [h1, setStatus_eq]
    rw [(rejectProject_found deliver' now' _ pid _ hf).2.1]
    exact h4

/-- C8, concrete instance: approving the pending sample project, and
approving it again later, leaves one approved project stamped by the
first call. -/
theorem moderation_transition_idempotent_witness :
    (approveProject (fun _ => true) 2000 sampleStore (.objectId "p1")).store.findProject "p1"
      = some { sampleProject with status := .approved, updatedAt := 2000 }
    ∧ (approveProject (fun _ => true) 3000
          (approveProject (fun _ => true) 2000 sampleStore (.objectId "p1")).store
          (.objectId "p1")).store
        = (approveProject (fun _ => true) 2000 sampleStore (.objectId "p1")).store :=
  have h := (moderation_transition_idempotent (fun _ => true) (fun _ => true) 2000 3000
    sampleStore "p1" sampleProject (by decide)).1
  ⟨h.2.1, h.2.2.2.2⟩

/-- C8, counterexample: approving the pending sample project changes a
field other than the status, the `updatedAt` stamp. -/
theorem moderation_other_fields_counterexample :
    (sampleStore.findProject "p1").map (fun p => p.updatedAt) = some 1000
    ∧ ((approveProject (fun _ => true) 2000 sampleStore (.objectId "p1")).store.findProject
        "p1").map (fun p => p.updatedAt) = some 2000 := by
  constructor <;> decide

/-- C9 (as amended): a call of `approveProject` or `rejectProject` on a
stored project hands the mailer exactly one notification with the owner's
email, the owner's name and the project title (and the reason text for a
rejection) when the owner's record can be loaded, whatever the current
status, also on a repeated call; when the owner's record cannot be loaded
nothing is sent. -/
theorem moderation_notifies_owner (deliver deliver' : Notification → Bool) (now now' : Int)
    (s : Store) (pid : Id) (p : Project) (h : s.findProject pid = some p) :
    (approveProject deliver now s (.objectId pid)).sent
      = (match s.users.find? (fun u => u.id == p.owner) with
         | some owner =>
           [{ kind := .approval, email := owner.email, fullName := owner.fullName
              projectName := p.title, reason := none }]
         | none => [])
    ∧ (approveProject deliver' now' (approveProject deliver now s (.objectId pid)).store
          (.objectId pid)).sent
        = (approveProject deliver now s (.objectId pid)).sent
    ∧ (rejectProject deliver now s (.objectId pid)).sent
        = (match s.users.find? (fun u => u.id == p.owner) with
           | some owner =>
             [{ kind := .rejection, email := owner.email, fullName := owner.fullName
                projectName := p.title, reason := some "Did not meet community guidelines" }]
           | none => [])
    ∧ (rejectProject deliver' now' (rejectProject deliver now s (.objectId pid)).store
          (.objectId pid)).sent
        = (rejectProject deliver now s (.objectId pid)).sent := by
  have hpop : ∀ (s' : Store) (q : Project), s'.users = s.users → q.owner = p.owner →
      populateOwner s' q = (s.users.find? (fun u => u.id == p.owner)).map
        (fun u => { id := u.id, fullName := u.fullName, email := u.email, avatar := u.avatar }) := by
    intro s' q hu hq
    unfold populateOwner
    rw [hu, hq]
  have hown : ∀ t, (setStatus now p t).owner = p.owner ∧ (setStatus now p t).title = p.title := by
    intro t
    rw [setStatus_eq]
    exact ⟨rfl, rfl⟩
  obtain ⟨_, hsa, hna⟩ := approveProject_found deliver now s pid p h
  obtain ⟨_, hsr, hnr⟩ := rejectProject_found deliver now s pid p h
  obtain ⟨ha1, _, ha3, _⟩ := saveStatus_spec now now' s pid p .approved h
  obtain ⟨hr1, _, hr3, _⟩ := saveStatus_spec now now' s pid p .rejected h
  have hfa : (s.saveProject (setStatus now p .approved)).findProject pid
      = some (setStatus now p .approved) := by rw [ha1, setStatus_eq]
  have hfr : (s.saveProject (setStatus now p .rejected)).findProject pid
      = some (setStatus now p .rejected) := by rw [hr1, setStatus_eq]
  have hna2 := (approveProject_found deliver' now' _ pid _ hfa).2.2
  have hnr2 := (rejectProject_found deliver' now' _ pid _ hfr).2.2
  rw [hsa, hna2, hna, hsr, hnr2, hnr, hpop s p rfl rfl, hpop _ _ ha3 (hown .approved).1,
    hpop _ _ hr3 (hown .rejected).1, (hown .approved).2, (hown .rejected).2]
  cases s.users.find? (fun u => u.id == p.owner) <;> simp

/-- C9, concrete instance: rejecting the sample project twice sends the
owner `alice` the same notification each time. -/
theorem moderation_notifies_owner_witness :
    (rejectProject (fun _ => true) 2000 sampleStore (.objectId "p1")).sent
      = [{ kind := .rejection, email := "alice@club.org", fullName := "Alice"
           projectName := "Robot arm", reason := some "Did not meet community guidelines" }]
    ∧ (rejectProject (fun _ => true) 3000
          (rejectProject (fun _ => true) 2000 sampleStore (.objectId "p1")).store
          (.objectId "p1")).sent
        = (rejectProject (fun _ => true) 2000 sampleStore (.objectId "p1")).sent :=
  have h := moderation_notifies_owner (fun _ => true) (fun _ => true) 2000 3000 sampleStore "p1"
    sampleProject (by decide)
  ⟨h.2.2.1, h.2.2.2⟩

/-- C9, counterexample: approving a stored project whose owner's record is
not in the store succeeds with status 200 and sends no notification. -/
theorem moderation_orphan_counterexample :
    (orphanStore.findProject "p1").isSome = true
    ∧ (approveProject (fun _ => true) 2000 orphanStore (.objectId "p1")).response.map
        (fun r => r.status) = some 200
    ∧ ((approveProject (fun _ => true) 2000 orphanStore (.objectId "p1")).store.findProject
        "p1").map (fun p => p.status) = some .approved
    ∧ (approveProject (fun _ => true) 2000 orphanStore (.objectId "p1")).sent = [] := by
  refine ⟨by decide, by decide, by decide, by decide⟩

/-- The console lines of `approveProject` on a stored project: one line for
a delivered notification, two error lines for a failed delivery. -/
theorem approveProject_log (deliver : Notification → Bool) (now : Int) (s : Store) (pid : Id)
    (p : Project) (h : s.findProject pid = some p) :
    (approveProject deliver now s (.objectId pid)).log
      = match populateOwner s p with
        | some owner =>
          if deliver { kind := .approval, email := owner.email, fullName := owner.fullName
                       projectName := p.title, reason := none }
          then ["Approval email sent to " ++ owner.email]
          else ["Error sending project approval email:", "Error sending approval email:"]
        | none => [] := by
  have ht : (setStatus now p .approved).title = p.title := by
    unfold setStatus; split_ifs <;> rfl
  unfold approveProject findById
  simp only [h, Option.map_some']
  cases ho : populateOwner s p with
  | none => simp
  | some owner =>
    by_cases hd : deliver { kind := .approval, email := owner.email, fullName := owner.fullName
                            projectName := p.title, reason := none } = true
    · simp [sendProjectApprovalEmail, ht, hd]
    · simp [sendProjectApprovalEmail, ht, hd]

/-- The console lines of `rejectProject` on a stored project. -/
theorem rejectProject_log (deliver : Notification → Bool) (now : Int) (s : Store) (pid : Id)
    (p : Project) (h : s.findProject pid = some p) :
    (rejectProject deliver now s (.objectId pid)).log
      = match populateOwner s p with
        | some owner =>
          if deliver { kind := .rejection, email := owner.email, fullName := owner.fullName
                       projectName := p.title
                       reason := some "Did not meet community guidelines" }
          then ["Rejection email sent to " ++ owner.email]
          else ["Error sending project rejection email:", "Error sending rejection email:"]
        | none => [] := by
  have ht : (setStatus now p .rejected).title = p.title := by
    unfold setStatus; split_ifs <;> rfl
  unfold rejectProject findById
  simp only [h, Option.map_some']
  cases ho : populateOwner s p with
  | none => simp
  | some owner =>
    by_cases hd : deliver { kind := .rejection, email := owner.email, fullName := owner.fullName
                            projectName := p.title
                            reason := some "Did not meet community guidelines" } = true
    · simp [sendProjectRejectionEmail, ht, hd]
    · simp [sendProjectRejectionEmail, ht, hd]

/-- C10: on a stored project the response of `approveProject` and of
`rejectProject` (200 with the updated project) and the store afterwards are
the same whether the delivery succeeds or fails; the outcome of the
delivery only decides which console lines are printed. -/
theorem moderation_ignores_delivery_failure (deliver : Notification → Bool) (now : Int)
    (s : Store) (pid : Id) (p : Project) (h : s.findProject pid = some p) :
    (approveProject deliver now s (.objectId pid)).response
      = (approveProject (fun _ => true) now s (.objectId pid)).response
    ∧ (approveProject deliver now s (.objectId pid)).response
      = some { status := 200
               body := .document { doc := setStatus now p .approved
                                   owner := .populated (populateOwner s p) } }
    ∧ (approveProject deliver now s (.objectId pid)).store
      = (approveProject (fun _ => true) now s (.objectId pid)).store
    ∧ ((approveProject deliver now s (.objectId pid)).store.findProject pid).map
        (fun q => q.status) = some .approved
    ∧ (rejectProject deliver now s (.objectId pid)).response
      = (rejectProject (fun _ => true) now s (.objectId pid)).response
    ∧ (rejectProject deliver now s (.objectId pid)).response
      = some { status := 200
               body := .document { doc := setStatus now p .rejected
                                   owner := .populated (populateOwner s p) } }
    ∧ (rejectProject deliver now s (.objectId pid)).store
      = (rejectProject (fun _ => true) now s (.objectId pid)).store
    ∧ ((rejectProject deliver now s (.objectId pid)).store.findProject pid).map
        (fun q => q.status) = some .rejected
    ∧ (approveProject deliver now s (.objectId pid)).log
      = (match populateOwner s p with
         | some owner =>
           if deliver { kind := .approval, email := owner.email, fullName := owner.fullName
                        projectName := p.title, reason := none }
           then ["Approval email sent to " ++ owner.email]
           else ["Error sending project approval email:", "Error sending approval email:"]
         | none => [])
    ∧ (rejectProject deliver now s (.objectId pid)).log
      = (match populateOwner s p with
         | some owner =>
           if deliver { kind := .rejection, email := owner.email, fullName := owner.fullName
                        projectName := p.title
                        reason := some "Did not meet community guidelines" }
           then ["Rejection email sent to " ++ owner.email]
           else ["Error sending project rejection email:", "Error sending rejection email:"]
         | none => []) := by
  obtain ⟨ha, hsa, _⟩ := approveProject_found deliver now s pid p h
  obtain ⟨ha', hsa', _⟩ := approveProject_found (fun _ => true) now s pid p h
  obtain ⟨hr, hsr, _⟩ := rejectProject_found deliver now s pid p h
  obtain ⟨hr', hsr', _⟩ := rejectProject_found (fun _ => true) now s pid p h
  obtain ⟨ha1, _⟩ := saveStatus_spec now now s pid p .approved h
  obtain ⟨hr1, _⟩ := saveStatus_spec now now s pid p .rejected h
  refine ⟨by rw [ha, ha'], ha, by rw [hsa, hsa'], ?_, by rw [hr, hr'], hr, by rw [hsr, hsr'], ?_,
    approveProject_log deliver now s pid p h, rejectProject_log deliver now s pid p h⟩
  · rw [hsa, ha1]; rfl
  · rw [hsr, hr1]; rfl

/-- C10, concrete instance: with a mailer that always fails, approving the
sample project gives the response and the store of a successful delivery,
and the failure is printed. -/
theorem moderation_ignores_delivery_failure_witness :
    (approveProject (fun _ => false) 2000 sampleStore (.objectId "p1")).response
      = (approveProject (fun _ => true) 2000 sampleStore (.objectId "p1")).response
    ∧ (approveProject (fun _ => false) 2000 sampleStore (.objectId "p1")).store
      = (approveProject (fun _ => true) 2000 sampleStore (.objectId "p1")).store
    ∧ (approveProject (fun _ => false) 2000 sampleStore (.objectId "p1")).log
      = ["Error sending project approval email:", "Error sending approval email:"]
    ∧ (approveProject (fun _ => true) 2000 sampleStore (.objectId "p1")).log
      = ["Approval email sent to alice@club.org"] :=
  have h := moderation_ignores_delivery_failure (fun _ => false) 2000 sampleStore "p1"
    sampleProject (by decide)
  ⟨h.1, h.2.2.1, h.2.2.2.2.2.2.2.2.1, by decide⟩


/-- The store left by a fetch of a well-formed identifier. -/
theorem getProjectRoute_store (now : Int) (s : Store) (pid : Id) :
    (getProjectRoute now s (.objectId pid)).store = incrementViews now s pid := by
  unfold getProjectRoute getProject incrementViews
  cases h : s.findProject pid <;>
    simp [h, mounted, callNext, errorOutcome, Except.map]

/-- Lookup by id after the view counter of a project was incremented. -/
theorem findProject_incrementViews (now : Int) (s : Store) (pid other : Id) :
    (incrementViews now s pid).findProject other
      = if other = pid then
          (s.findProject pid).map (fun p => { p with views := p.views + 1, updatedAt := now })
        else s.findProject other := by
  unfold incrementViews
  cases h : s.findProject pid with
  | none =>
    simp only
    split_ifs with ho
    · rw [ho, h]; rfl
    · rfl
  | some p =>
    simp only
    have hid := findProject_id s pid p h
    rw [findProject_saveProject]
    by_cases ho : other = pid
    · subst ho
      simp [h, hid]
    · have : ¬ other = p.id := by rw [hid]; exact ho
      simp [ho, this]

/-- C11: a fetch of a stored project answers 200, increases its stored view
counter by exactly 1 and leaves the counter of every other project as it
was; a second fetch brings it to 2 more than at the start; a fetch of an
identifier that matches no project, or of a malformed one, leaves the store
unchanged. -/
theorem view_counter_increment (now₁ now₂ : Int) (s : Store) (pid : Id) (p : Project)
    (h : s.findProject pid = some p) :
    (getProjectRoute now₁ s (.objectId pid)).response.map (fun r => r.status) = some 200
    ∧ ((getProjectRoute now₁ s (.objectId pid)).store.findProject pid).map (fun q => q.views)
        = some (p.views + 1)
    ∧ (∀ other, other ≠ pid →
        (getProjectRoute now₁ s (.objectId pid)).store.findProject other = s.findProject other)
    ∧ ((getProjectRoute now₂ (getProjectRoute now₁ s (.objectId pid)).store
          (.objectId pid)).store.findProject pid).map (fun q => q.views) = some (p.views + 2)
    ∧ (∀ q, s.findProject q = none → (getProjectRoute now₁ s (.objectId q)).store = s)
    ∧ (∀ raw, (getProjectRoute now₁ s (.malformed raw)).store = s) := by
  refine ⟨?_, ?_, ?_, ?_, ?_, ?_⟩
  · unfold getProjectRoute getProject
    simp [h, mounted]
  · rw [getProjectRoute_store, findProject_incrementViews, if_pos rfl, h]
    rfl
  · intro other hne
    rw [getProjectRoute_store, findProject_incrementViews, if_neg hne]
  · rw [getProjectRoute_store, getProjectRoute_store, findProject_incrementViews, if_pos rfl,
      findProject_incrementViews, if_pos rfl, h]
    simp only [Option.map_some', Option.some.injEq]
    ring
  · intro q hq
    rw [getProjectRoute_store]
    unfold incrementViews
    rw [hq]
  · intro raw
    simp [getProjectRoute, getProject, getProjectCatch, objectIdError, mounted, callNext,
      errorOutcome, Except.map]

/-- C11, concrete instance: two fetches of the sample project bring its
counter from 0 to 2. -/
theorem view_counter_increment_witness :
    ((getProjectRoute 3000 (getProjectRoute 2000 sampleStore (.objectId "p1")).store
        (.objectId "p1")).store.findProject "p1").map (fun q => q.views) = some (0 + 2) :=
  (view_counter_increment 2000 3000 sampleStore "p1" sampleProject (by decide)).2.2.2.1

/-- C12: for a limit N of at least 1, `getRelatedProjects` returns at most N
items; each is the projection of a stored project with the given category,
status `approved` and another id; when at most N such projects are stored,
all of them are returned. -/
theorem related_projects_capped (s : Store) (pid : Id) (category : String) (N : Int)
    (hN : 1 ≤ N) :
    (getRelatedProjects s (.objectId pid) category N).length ≤ N.toNat
    ∧ (∀ x ∈ getRelatedProjects s (.objectId pid) category N,
        x.category = category ∧ x.id ≠ pid
        ∧ ∃ p ∈ s.projects, x = relateProject s p ∧ p.category = category
            ∧ p.status = .approved ∧ p.id ≠ pid)
    ∧ ((s.projects.filter (isRelated pid category)).length ≤ N.toNat →
        getRelatedProjects s (.objectId pid) category N
          = (s.projects.filter (isRelated pid category)).map (relateProject s)) := by
  have hpos : ¬ N ≤ 0 := by omega
  unfold getRelatedProjects
  simp only [hpos, if_false]
  refine ⟨?_, ?_, ?_⟩
  · rw [List.length_take]
    exact Nat.min_le_left _ _
  · intro x hx
    have hx' := List.mem_of_mem_take hx
    simp only [List.mem_map, List.mem_filter] at hx'
    obtain ⟨p, ⟨hp, hrel⟩, rfl⟩ := hx'
    unfold isRelated at hrel
    simp only [Bool.and_eq_true, bne_iff_ne, ne_eq, beq_iff_eq, decide_eq_true_eq] at hrel
    exact ⟨hrel.1.2, hrel.1.1, p, hp, rfl, hrel.1.2, hrel.2, hrel.1.1⟩
  · intro hlen
    apply List.take_of_length_le
    rw [List.length_map]
    exact hlen

/-- C12, concrete instance: with the limit 3 of `getProject`, the approved
sample project is related to another project of its category, and not to
itself. -/
theorem related_projects_capped_witness :
    (getRelatedProjects approvedStore (.objectId "p7") "IoT" 3).map (fun x => x.id) = ["p1"]
    ∧ getRelatedProjects approvedStore (.objectId "p1") "IoT" 3 = [] := by
  have h := (related_projects_capped approvedStore "p7" "IoT" 3 (by decide)).2.2 (by decide)
  exact ⟨by rw [h]; decide, by decide⟩

/-- A well-formed identifier that matches no project is answered 404
`Project not found`, and nothing is written. -/
theorem getProjectRoute_missing (now : Int) (s : Store) (pid : Id)
    (hmiss : s.findProject pid = none) :
    getProjectRoute now s (.objectId pid)
      = { response := some { status := 404, body := .failure "Project not found" }
          store := s, log := ["Project not found"] } := by
  unfold getProjectRoute getProject
  simp only [hmiss, Option.map_none']
  simp [mounted, callNext, Except.map, errorOutcome, answerError_ApiError, ApiError_message,
    codeOr, strOr]

/-- A malformed identifier is answered by `getProject` with status 500 and
the message of the driver: the error of `mongoose.Types.ObjectId` is not a
`CastError`, so the `catch` clause takes its last branch. -/
theorem getProjectRoute_malformed (now : Int) (s : Store) (raw : String) :
    getProjectRoute now s (.malformed raw)
      = { response := some { status := 500, body := .failure objectIdError.message }
          store := s, log := [objectIdError.message] } := by
  unfold getProjectRoute getProject getProjectCatch
  simp [mounted, callNext, Except.map, errorOutcome, answerError_ApiError, ApiError_message,
    codeOr, strOr, objectIdError]

/-- A `CastError` without a duplicate-key code that reaches
`globalErrorHandler` is answered 404 `Resource not found`. -/
theorem globalErrorHandler_castError (e : JsError) (hname : e.name = "CastError")
    (hcode : e.code ≠ some 11000) :
    globalErrorHandler e = .ok { status := 404, body := .failure "Resource not found" } := by
  unfold globalErrorHandler
  simp [hname, hcode, codeOr, strOr, bind, Except.bind, pure, Except.pure]

/-- C13, evaluation at the failing input: fetching the malformed identifier
`invalid-id` is answered with status 500 and the message of the driver, not
with 400 `Invalid project ID`; a well-formed identifier that matches no
project is answered 404, and neither request writes to the store. -/
theorem malformed_identifier_answers_500 :
    (getProjectRoute 2000 sampleStore (.malformed "invalid-id")).response
      = some { status := 500
               body := .failure
                "Argument passed in must be a single String of 12 bytes or a string of 24 hex characters" }
    ∧ (getProjectRoute 2000 sampleStore (.malformed "invalid-id")).response
      ≠ some { status := 400, body := .failure "Invalid project ID" }
    ∧ (getProjectRoute 2000 sampleStore (.malformed "invalid-id")).store = sampleStore
    ∧ (getProjectRoute 2000 sampleStore (.objectId "p7")).response
      = some { status := 404, body := .failure "Project not found" } := by
  refine ⟨by decide, by decide, by decide, by decide⟩

/-- What a create request answered with 201 went through: the requester was
authenticated, the validation chain found nothing, and `Project.create`
stored the returned document with the requester as owner. -/
theorem createRoute_created (verify : String → Except JwtFailure Id) (isURL : String → Bool)
    (newId : Id) (now : Int) (s : Store) (authorization : Option String) (body : ProjectBody)
    (doc : ProjectDoc)
    (h : (createRoute verify isURL newId now s authorization body).response
      = some { status := 201, body := .document doc }) :
    ∃ user vbody, protect verify s authorization = .ok user
      ∧ validateCreate body = ([], vbody)
      ∧ createDocument isURL newId now s { vbody with owner := some user.id }
          = .ok (doc.doc, (createRoute verify isURL newId now s authorization body).store)
      ∧ doc.owner = .ref doc.doc.owner := by
  unfold createRoute at h ⊢
  cases hp : protect verify s authorization with
  | error e =>
    simp only [hp, errorOutcome, Option.some.injEq] at h
    rcases answerError_body e with hb | ⟨t, hb⟩ <;> rw [h] at hb <;> simp at hb
  | ok user =>
    simp only [hp] at h ⊢
    rcases hv : validateCreate body with ⟨errors, vbody⟩
    cases errors with
    | cons e es => simp [hv] at h
    | nil =>
      simp only [hv] at h ⊢
      unfold createProject at h ⊢
      simp only at h ⊢
      cases hc : createDocument isURL newId now s { vbody with owner := some user.id } with
      | error e => simp [hc, callNext, Except.map] at h
      | ok r =>
        obtain ⟨p, s'⟩ := r
        simp only [hc, Reply.response, Option.some.injEq, Response.mk.injEq, Body.document.injEq,
          true_and] at h ⊢
        subst h
        exact ⟨user, vbody, rfl, rfl, hc, rfl⟩

/-- The fields that `Project.create` takes from the body as they are. -/
theorem createDocument_fields (isURL : String → Bool) (newId : Id) (now : Int) (s : Store)
    (body : ProjectBody) (p : Project) (s' : Store)
    (h : createDocument isURL newId now s body = .ok (p, s')) :
    p.owner = body.owner.getD "" ∧ p.likes = body.likes.getD [] ∧ p.id = newId := by
  unfold createDocument at h
  simp only at h
  split at h
  · simp only [Except.ok.injEq, Prod.mk.injEq] at h
    obtain ⟨hp, _⟩ := h
    subst hp
    exact ⟨rfl, rfl, rfl⟩
  · simp at h

/-- The validation chain refuses a title or a description whose trimmed
length is out of bounds. -/
theorem validateCreate_lengths (body : ProjectBody)
    (hbad : (trim (body.title.getD "")).length < 5 ∨ 100 < (trim (body.title.getD "")).length
      ∨ (trim (body.description.getD "")).length < 50
      ∨ 2000 < (trim (body.description.getD "")).length) :
    (validateCreate body).1 ≠ [] := by
  unfold validateCreate
  simp only [lengthWithin]
  intro hnil
  simp only [List.append_eq_nil] at hnil
  obtain ⟨⟨⟨ht, hd⟩, _⟩, _⟩ := hnil
  rcases hbad with h | h | h | h
  · have : ¬ (5 ≤ (trim (body.title.getD "")).length) := by omega
    simp [this] at ht
  · have : ¬ ((trim (body.title.getD "")).length ≤ 100) := by omega
    simp [this] at ht
  · have : ¬ (50 ≤ (trim (body.description.getD "")).length) := by omega
    simp [this] at hd
  · have : ¬ ((trim (body.description.getD "")).length ≤ 2000) := by omega
    simp [this] at hd

/-- C14 (as amended): for an authenticated create request whose title,
once trimmed, has fewer than 5 or more than 100 characters, or whose
description, once trimmed, has fewer than 50 or more than 2000 characters,
the route answers 400 and the store, hence every listing, is unchanged. -/
theorem create_rejects_bad_lengths (verify : String → Except JwtFailure Id)
    (isURL : String → Bool) (newId : Id) (now : Int) (s : Store) (authorization : Option String)
    (body : ProjectBody) (user : User) (M : Matchers) (parseDate : String → Option Int)
    (req : ListRequest)
    (hAuth : protect verify s authorization = .ok user)
    (hbad : (trim (body.title.getD "")).length < 5 ∨ 100 < (trim (body.title.getD "")).length
      ∨ (trim (body.description.getD "")).length < 50
      ∨ 2000 < (trim (body.description.getD "")).length) :
    (createRoute verify isURL newId now s authorization body).response.map (fun r => r.status)
      = some 400
    ∧ (createRoute verify isURL newId now s authorization body).store = s
    ∧ getProjects M parseDate (createRoute verify isURL newId now s authorization body).store req
      = getProjects M parseDate s req := by
  have hne := validateCreate_lengths body hbad
  have key : (createRoute verify isURL newId now s authorization body).response.map
        (fun r => r.status) = some 400
      ∧ (createRoute verify isURL newId now s authorization body).store = s := by
    unfold createRoute
    simp only [hAuth]
    rcases hv : validateCreate body with ⟨errors, vbody⟩
    rw [hv] at hne
    cases errors with
    | nil => exact absurd rfl hne
    | cons e es => simp
  exact ⟨key.1, key.2, by rw [key.2]⟩

/-- C14, concrete instance: a 40-character description is refused with 400
and nothing is stored. -/
theorem create_rejects_bad_lengths_witness :
    (createRoute sampleVerify (fun _ => true) "p2" 5000 sampleStore (some "Bearer tok-a")
        { sampleBody with description := some "A robot arm driven by a microcontroller." }
      ).response.map (fun r => r.status) = some 400
    ∧ (createRoute sampleVerify (fun _ => true) "p2" 5000 sampleStore (some "Bearer tok-a")
        { sampleBody with description := some "A robot arm driven by a microcontroller." }
      ).store = sampleStore :=
  have h := create_rejects_bad_lengths sampleVerify (fun _ => true) "p2" 5000 sampleStore
    (some "Bearer tok-a")
    { sampleBody with description := some "A robot arm driven by a microcontroller." } alice
    sampleMatchers (fun _ => none) {} (by rfl) (by decide)
  ⟨h.1, h.2.1⟩

/-- C14, counterexample: a title of 105 characters, nine letters followed
by spaces, is accepted after trimming; the request is answered with 201 and
the project is stored. -/
theorem create_padded_title_counterexample :
    (paddedBody.title.getD "").length = 105
    ∧ (createRoute sampleVerify (fun _ => true) "p2" 5000 sampleStore (some "Bearer tok-a")
        paddedBody).response.map (fun r => r.status) = some 201
    ∧ ((createRoute sampleVerify (fun _ => true) "p2" 5000 sampleStore (some "Bearer tok-a")
        paddedBody).store.findProject "p2").map (fun p => p.title) = some "Robot arm" := by
  refine ⟨by decide, by decide, by decide⟩

/-- The no-break space U+00A0 is white space to `trim`: a title of three
letters followed by two of them is refused with 400, and a title of 99
letters followed by two of them is stored, trimmed, with 201. -/
theorem trim_no_break_space_sample :
    trim ("Arm" ++ String.mk [Char.ofNat 160, Char.ofNat 160]) = "Arm"
    ∧ (createRoute sampleVerify (fun _ => true) "p2" 5000 sampleStore (some "Bearer tok-a")
        { sampleBody with title := some ("Arm" ++ String.mk [Char.ofNat 160, Char.ofNat 160]) }
      ).response.map (fun r => r.status) = some 400
    ∧ (createRoute sampleVerify (fun _ => true) "p2" 5000 sampleStore (some "Bearer tok-a")
        { sampleBody with
          title := some (String.mk (List.replicate 99 'a' ++ [Char.ofNat 160, Char.ofNat 160])) }
      ).response.map (fun r => r.status) = some 201 := by
  refine ⟨by decide, by decide, by decide⟩

/-- C21: a create request answered with 201 stores a project whose owner is
the authenticated requester, whatever owner the body carried. -/
theorem created_owner_is_requester (verify : String → Except JwtFailure Id)
    (isURL : String → Bool) (newId : Id) (now : Int) (s : Store) (authorization : Option String)
    (body : ProjectBody) (doc : ProjectDoc) (user : User)
    (hAuth : protect verify s authorization = .ok user)
    (h : (createRoute verify isURL newId now s authorization body).response
      = some { status := 201, body := .document doc }) :
    doc.doc.owner = user.id
    ∧ (createRoute verify isURL newId now s authorization body).store
        = { s with projects := s.projects ++ [doc.doc] } := by
  obtain ⟨u, vbody, hp, _, hc, _⟩ := createRoute_created verify isURL newId now s authorization
    body doc h
  rw [hAuth] at hp
  cases hp
  obtain ⟨ho, _, _⟩ := createDocument_fields _ _ _ _ _ _ _ hc
  obtain ⟨_, _, hs⟩ := createDocument_ok _ _ _ _ _ _ _ hc
  exact ⟨ho, hs⟩

/-- C21, concrete instance: `alice` posts the sample body with the owner
field set to the admin `u9`; the stored project is owned by `alice`. -/
theorem created_owner_is_requester_witness :
    ((createRoute sampleVerify (fun _ => true) "p2" 5000 sampleStore (some "Bearer tok-a")
        { sampleBody with owner := some "u9" }).store.findProject "p2").map (fun p => p.owner)
      = some "u1" := by
  have h := created_owner_is_requester sampleVerify (fun _ => true) "p2" 5000 sampleStore
    (some "Bearer tok-a") { sampleBody with owner := some "u9" }
    { doc := { sampleProject with
                id := "p2", tags := [], status := .approved, createdAt := 5000
                updatedAt := 5000 }
      owner := .ref "u1" } alice (by rfl) (by rfl)
  rw [h.2]
  decide


/-- One like toggle keeps a likes collection free of duplicates. -/
theorem toggleLike_nodup (likes : List Id) (userId : Id) (h : likes.Nodup) :
    (toggleLike likes userId).Nodup := by
  unfold toggleLike
  by_cases hm : userId ∈ likes
  · have : likes.any (fun like => like == userId) = true := by
      simp only [List.any_eq_true, beq_iff_eq]
      exact ⟨userId, hm, rfl⟩
    simp only [this, if_true]
    exact h.filter _
  · have : likes.any (fun like => like == userId) = false := by
      simp only [List.any_eq_false, beq_iff_eq]
      intro x hx hxe
      exact hm (hxe ▸ hx)
    simp only [this, Bool.false_eq_true, if_false]
    rw [List.nodup_append]
    refine ⟨h, List.nodup_singleton _, ?_⟩
    intro a ha hb
    rw [List.mem_singleton] at hb
    exact hm (hb ▸ ha)

/-- C18 (as amended): a created project holds the likes field of the body
as sent, and an empty likes collection when the body has none; one like
toggle by `likeProject` turns the stored likes of the project into the
toggled collection, which is free of duplicates whenever the stored one
was. -/
theorem likes_stay_duplicate_free (verify : String → Except JwtFailure Id)
    (isURL : String → Bool) (newId : Id) (now : Int) (s : Store) (authorization : Option String)
    (body : ProjectBody) (pid : Id) (p : Project) (user : User) (likes : List Id)
    (userId : Id) (hfind : s.findProject pid = some p) (hnodup : p.likes.Nodup)
    (hlikes : likes.Nodup) :
    (toggleLike likes userId).Nodup
    ∧ ((mounted s (likeProject now s (.objectId pid) user true)).store.findProject pid).map
        (fun q => q.likes) = some (toggleLike p.likes user.id)
    ∧ (toggleLike p.likes user.id).Nodup
    ∧ (∀ doc,
        (createRoute verify isURL newId now s authorization body).response
          = some { status := 201, body := .document doc } →
        doc.doc.likes = body.likes.getD [] ∧ (body.likes = none → doc.doc.likes = [])) := by
  refine ⟨toggleLike_nodup likes userId hlikes, ?_, toggleLike_nodup p.likes user.id hnodup, ?_⟩
  · rw [likeProject_store, hfind]
    simp only
    rw [findProject_saveProject]
    have hid := findProject_id s pid p hfind
    simp [hid, hfind]
  · intro doc h
    obtain ⟨u, vbody, _, hv, hc, _⟩ := createRoute_created verify isURL newId now s
      authorization body doc h
    obtain ⟨_, hl, _⟩ := createDocument_fields _ _ _ _ _ _ _ hc
    have hvl : vbody.likes = body.likes := by
      have : (validateCreate body).2.likes = body.likes := rfl
      rw [hv] at this
      exact this
    have hlikes : doc.doc.likes = body.likes.getD [] := by
      rw [hl]
      simp only
      rw [hvl]
    refine ⟨hlikes, ?_⟩
    intro hnone
    rw [hlikes, hnone]
    rfl

/-- C18, concrete instance: `bob` likes the sample project, whose likes
were empty; the stored likes hold him once. -/
theorem likes_stay_duplicate_free_witness :
    ((mounted clubStore (likeProject 2000 clubStore (.objectId "p1") bob true)).store.findProject
        "p1").map (fun q => q.likes) = some ["u2"]
    ∧ (toggleLike ["u1", "u2"] "u1").Nodup := by
  have h := likes_stay_duplicate_free clubVerify (fun _ => true) "p2" 5000 clubStore
    (some "Bearer tok-a") { sampleBody with status := none } "p1" sampleProject bob
    ["u1", "u2"] "u1" (by decide) (by decide) (by decide)
  exact ⟨h.2.1, h.1⟩

/-- C18, counterexample: a valid create request whose body carries a likes
field with a repeated member is answered with 201 and stored with the
duplicate. -/
theorem likes_at_creation_counterexample :
    (createRoute clubVerify (fun _ => true) "p2" 5000 clubStore (some "Bearer tok-a")
        likedBody).response.map (fun r => r.status) = some 201
    ∧ ((createRoute clubVerify (fun _ => true) "p2" 5000 clubStore (some "Bearer tok-a")
        likedBody).store.findProject "p2").map (fun p => p.likes) = some ["u2", "u2"]
    ∧ ¬ (["u2", "u2"] : List Id).Nodup := by
  refine ⟨by decide, by decide, by decide⟩

/-- C19, evaluation at a failing input: `bob`, neither the owner of the
sample project nor an admin, sends a valid update; the route answers with
status 500 and the body of its own `catch`, not with 403; the stored project
is unchanged. -/
theorem update_by_stranger_answers_500 (operate : Operate) :
    protect clubVerify clubStore (some "Bearer tok-b") = .ok bob
    ∧ updateProject operate (fun _ => true) 2000 clubStore (.objectId "p1") bob
        { fields := { title := some "Robot arm v2" } } true
      = .ok (.passed (ApiError "Not authorized to update this project" 403), clubStore)
    ∧ updateRoute operate clubVerify (fun _ => true) 2000 clubStore (some "Bearer tok-b")
        (.objectId "p1") { fields := { title := some "Robot arm v2" } }
      = { response := some { status := 500, body := .message "Server error updating project" }
          store := clubStore } := by
  refine ⟨by rfl, by rfl, by rfl⟩

/-- C20, evaluation at a failing input: `alice`, the owner of the sample
project and not an admin, asks to delete it; the owner path was populated by
the find hook, its text is not her id, and the request is answered with 403
while the project stays stored. -/
theorem delete_by_owner_answers_403 :
    sampleProject.owner = alice.id
    ∧ (findById sampleStore "p1").map (fun d => d.owner)
      = some (.populated
          (some { id := "u1", fullName := "Alice", email := "alice@club.org", avatar := "" }))
    ∧ (deleteRoute sampleVerify sampleStore (some "Bearer tok-a") (.objectId "p1")).response
      = some { status := 403, body := .failure "Not authorized to delete this project" }
    ∧ (deleteRoute sampleVerify sampleStore (some "Bearer tok-a") (.objectId "p1")).store
      = sampleStore
    ∧ (deleteRoute sampleVerify sampleStore (some "Bearer tok-r") (.objectId "p1")).response
      = some { status := 200, body := .removed "Project removed" }
    ∧ (deleteRoute sampleVerify sampleStore (some "Bearer tok-r") (.objectId "p1")).store
      = { sampleStore with projects := [] } := by
  refine ⟨by rfl, by rfl, by rfl, by rfl, by rfl, by rfl⟩


/-- The scoring loop adds up the points of the projects. -/
theorem foldl_scoreStep (ps : List Project) (acc : Int) :
    ps.foldl scoreStep acc
      = acc + (ps.map (fun p => 2 * (p.likes.length : Int) + Int.fdiv p.views 10
          + (if p.featured then 10 else 0) + (if p.status = .approved then 5 else 0))).sum := by
  induction ps generalizing acc with
  | nil => simp
  | cons p ps ih =>
    simp only [List.foldl_cons, List.map_cons, List.sum_cons]
    rw [ih]
    unfold scoreStep
    simp only
    split_ifs <;> ring

/-- The keys of documents that all hold a bare owner reference. -/
theorem ownerKeys_bare (docs : List ProjectDoc) (h : ∀ d ∈ docs, d.owner = .ref d.doc.owner) :
    ownerKeys docs = .ok (docs.map (fun d => (d.doc.owner, d.doc))) := by
  induction docs with
  | nil => rfl
  | cons d ds ih =>
    have hd := h d (List.mem_cons_self _ _)
    have hds := ih (fun x hx => h x (List.mem_cons_of_mem _ hx))
    unfold ownerKeys
    rw [hd]
    simp only [ownerToString]
    rw [hds]
    simp

/-- The projects filed under a member's id, for bare owner references, are
the projects whose owner is the member. -/
theorem keyed_bare_filter (docs : List ProjectDoc) (uid : Id) :
    ((docs.map (fun d => (d.doc.owner, d.doc))).filter (fun kp => kp.1 == uid)).map
        (fun kp => kp.2)
      = (docs.map (fun d => d.doc)).filter (fun p => p.owner == uid) := by
  induction docs with
  | nil => rfl
  | cons d ds ih =>
    simp only [List.map_cons, List.filter_cons]
    by_cases hk : d.doc.owner = uid
    · simp [hk, ih]
    · have hb : (d.doc.owner == uid) = false := by simpa using hk
      simp only [hb, Bool.false_eq_true, if_false]
      exact ih

/-- C15 (as amended): on project documents that hold a bare owner reference
the score of every entry of the leaderboard is the sum, over the projects
owned by that member, of 2 per like, 1 per full ten views, 10 if featured
and 5 if approved; a member with one approved, featured project with 3
likes and 25 views scores 23. -/
theorem leaderboard_score_formula (users : List User) (docs : List ProjectDoc)
    (h : ∀ d ∈ docs, d.owner = .ref d.doc.owner) :
    (∃ board, generateLeaderboard users docs = .ok board
      ∧ ∀ e ∈ board, ∃ u ∈ users, e.id = u.id
          ∧ e.score = specMemberScore u.id (docs.map (fun d => d.doc)))
    ∧ generateLeaderboard [alice] [{ doc := starProject, owner := .ref "u1" }]
      = .ok [{ id := "u1", fullName := "Alice", avatar := "", score := 23, projectCount := 1
               totalLikes := 3, totalViews := 25 }] := by
  refine ⟨⟨_, by unfold generateLeaderboard; rw [ownerKeys_bare docs h], ?_⟩, by rfl⟩
  intro e he
  have he' := (List.perm_insertionSort _ _).subset he
  simp only [List.mem_map] at he'
  obtain ⟨u, hu, rfl⟩ := he'
  refine ⟨u, hu, rfl, ?_⟩
  unfold leaderboardEntry specMemberScore
  simp only
  rw [foldl_scoreStep, zero_add, keyed_bare_filter]

/-- C15, concrete instance: two members and the starred project of `alice`
held by bare reference; every entry carries the specified score. -/
theorem leaderboard_score_formula_witness :
    ∃ board, generateLeaderboard [bob, alice] [{ doc := starProject, owner := .ref "u1" }]
        = .ok board
      ∧ ∀ e ∈ board, ∃ u ∈ [bob, alice], e.id = u.id
          ∧ e.score = specMemberScore u.id [starProject] :=
  (leaderboard_score_formula [bob, alice] [{ doc := starProject, owner := .ref "u1" }]
    (by decide)).1

/-- C15, counterexample: the example given with the formula; the specified sum for
one approved, featured project with 3 likes and 25 views is 6 + 2 + 10 + 5,
that is 23 and not 21, and 23 is the score the code gives. -/
theorem leaderboard_example_counterexample :
    specMemberScore "u1" [starProject] = 23
    ∧ (generateLeaderboard [alice] [{ doc := starProject, owner := .ref "u1" }]).toOption.map
        (fun board => board.map (fun e => e.score)) = some [23]
    ∧ (23 : Int) ≠ 21 := by
  refine ⟨by decide, by rfl, by decide⟩

/-- Evaluation of the leaderboard on a document as `Project.find` returns
it: the find hook has populated the owner path, the project is filed under
the text of the owner record and the owner's entry gets no project. -/
theorem leaderboard_populated_owner_scores_zero :
    (findById { users := [alice], projects := [starProject] } "p1") = some starFound
    ∧ generateLeaderboard [alice] [starFound]
      = .ok [{ id := "u1", fullName := "Alice", avatar := "", score := 0, projectCount := 0
               totalLikes := 0, totalViews := 0 }] := by
  refine ⟨by rfl, by rfl⟩

/-- Whenever `generateLeaderboard` returns, its result holds one entry per
member, in an order of non-increasing score, and a member under whose id no
project is filed has score 0 and project count 0. -/
theorem leaderboard_shape (users : List User) (docs : List ProjectDoc)
    (board : List LeaderboardEntry) (h : generateLeaderboard users docs = .ok board) :
    (board.map (fun e => e.id)).Perm (users.map (fun u => u.id))
    ∧ board.Sorted (fun a b => b.score ≤ a.score)
    ∧ ∃ keyed, ownerKeys docs = .ok keyed
        ∧ ∀ e ∈ board, (∀ kp ∈ keyed, kp.1 ≠ e.id) → e.score = 0 ∧ e.projectCount = 0 := by
  unfold generateLeaderboard at h
  cases hk : ownerKeys docs with
  | error e => simp [hk] at h
  | ok keyed =>
    simp only [hk, Except.ok.injEq] at h
    subst h
    haveI : IsTotal LeaderboardEntry (fun a b => b.score ≤ a.score) :=
      ⟨fun a b => le_total b.score a.score⟩
    haveI : IsTrans LeaderboardEntry (fun a b => b.score ≤ a.score) :=
      ⟨fun a b c hab hbc => le_trans hbc hab⟩
    refine ⟨?_, List.sorted_insertionSort _ _, keyed, rfl, ?_⟩
    · have hp := (List.perm_insertionSort (fun a b : LeaderboardEntry => b.score ≤ a.score)
        (users.map (leaderboardEntry keyed))).map (fun e => e.id)
      refine hp.trans ?_
      rw [List.map_map]
      exact List.Perm.of_eq rfl
    · intro e he hno
      have he' := (List.perm_insertionSort _ _).subset he
      simp only [List.mem_map] at he'
      obtain ⟨u, _, rfl⟩ := he'
      have hnil : keyed.filter (fun kp => kp.1 == u.id) = [] := by
        rw [List.filter_eq_nil_iff]
        intro kp hkp
        have := hno kp hkp
        simpa [leaderboardEntry] using this
      simp [leaderboardEntry, hnil]

/-- C16, evaluation at a failing input: for a project whose owner record is
not stored, `Project.find` returns a document whose owner path is `null`,
and `generateLeaderboard` fails with a `TypeError` instead of returning a
list. -/
theorem leaderboard_null_owner_fails :
    findById orphanStore "p1" = some { doc := sampleProject, owner := .populated none }
    ∧ generateLeaderboard orphanStore.users
        [{ doc := sampleProject, owner := .populated none }]
      = .error { name := "TypeError"
                 message := "Cannot read properties of null (reading 'toString')" } := by
  refine ⟨by rfl, by rfl⟩

/-- The loop of `calculateUserMetrics` adds the counts and sums of the
projects to the running metrics and leaves the other fields alone. -/
theorem foldl_metricsStep (ps : List Project) (m : UserMetrics) :
    (ps.foldl metricsStep m).totalProjects = m.totalProjects
    ∧ (ps.foldl metricsStep m).pendingProjects
        = m.pendingProjects + (ps.filter (fun p => p.status = .pending)).length
    ∧ (ps.foldl metricsStep m).approvedProjects
        = m.approvedProjects + (ps.filter (fun p => p.status = .approved)).length
    ∧ (ps.foldl metricsStep m).rejectedProjects
        = m.rejectedProjects + (ps.filter (fun p => p.status = .rejected)).length
    ∧ (ps.foldl metricsStep m).totalProjectViews
        = m.totalProjectViews + (ps.map (fun p => p.views)).sum
    ∧ (ps.foldl metricsStep m).totalProjectLikes
        = m.totalProjectLikes + (ps.map (fun p => p.likes.length)).sum
    ∧ (ps.foldl metricsStep m).avgProjectEngagement = m.avgProjectEngagement := by
  induction ps generalizing m with
  | nil => simp
  | cons p ps ih =>
    simp only [List.foldl_cons]
    obtain ⟨h1, h2, h3, h4, h5, h6, h7⟩ := ih (metricsStep m p)
    rw [h1, h2, h3, h4, h5, h6, h7]
    unfold metricsStep
    cases hs : p.status <;>
      simp [hs, List.filter_cons] <;> omega

/-- The three status counters of a project list add up to its length. -/
theorem status_counts_total (ps : List Project) :
    (ps.filter (fun p => p.status = .pending)).length
      + (ps.filter (fun p => p.status = .approved)).length
      + (ps.filter (fun p => p.status = .rejected)).length = ps.length := by
  induction ps with
  | nil => rfl
  | cons p ps ih =>
    cases hs : p.status <;> simp [hs, List.filter_cons] <;> omega

/-- C17: `calculateUserMetrics` returns the number of projects, the number
of projects in each status (three counters that add up to the total), the
sum of the views, the sum of the like counts, and the average views per
project, which is 0 for no project. -/
theorem user_metrics_counts (now : Int) (user : User) (projects : List Project) :
    (calculateUserMetrics now user projects).totalProjects = projects.length
    ∧ (calculateUserMetrics now user projects).pendingProjects
        = (projects.filter (fun p => p.status = .pending)).length
    ∧ (calculateUserMetrics now user projects).approvedProjects
        = (projects.filter (fun p => p.status = .approved)).length
    ∧ (calculateUserMetrics now user projects).rejectedProjects
        = (projects.filter (fun p => p.status = .rejected)).length
    ∧ (calculateUserMetrics now user projects).pendingProjects
        + (calculateUserMetrics now user projects).approvedProjects
        + (calculateUserMetrics now user projects).rejectedProjects
        = (calculateUserMetrics now user projects).totalProjects
    ∧ (calculateUserMetrics now user projects).totalProjectViews
        = (projects.map (fun p => p.views)).sum
    ∧ (calculateUserMetrics now user projects).totalProjectLikes
        = (projects.map (fun p => p.likes.length)).sum
    ∧ (calculateUserMetrics now user projects).avgProjectEngagement
        = (if projects.length = 0 then 0
           else (((projects.map (fun p => p.views)).sum : Int) : ℚ) / (projects.length : ℚ))
    ∧ (calculateUserMetrics now user []).avgProjectEngagement = 0 := by
  cases hps : projects with
  | nil =>
    refine ⟨rfl, rfl, rfl, rfl, rfl, rfl, rfl, ?_, rfl⟩
    simp [calculateUserMetrics]
  | cons q qs =>
    rw [← hps]
    have key := foldl_metricsStep projects
      { totalProjects := projects.length, approvedProjects := 0, pendingProjects := 0
        rejectedProjects := 0, totalProjectViews := 0, totalProjectLikes := 0
        avgProjectEngagement := 0, joinDate := user.joinDate
        daysSinceJoin := Int.fdiv (now - user.joinDate) (1000 * 60 * 60 * 24) }
    obtain ⟨h1, h2, h3, h4, h5, h6, _⟩ := key
    simp only [zero_add] at h2 h3 h4 h5 h6
    have hsum := status_counts_total projects
    have hlen : projects.length > 0 := by rw [hps]; simp
    have hne : projects.length ≠ 0 := by omega
    unfold calculateUserMetrics
    simp only [hlen, if_true, hne, if_false]
    refine ⟨h1, h2, h3, h4, ?_, h5, h6, ?_, rfl⟩
    · rw [h1, h2, h3, h4]; exact hsum
    · rw [h5]


/-- The sorted list of matches has as many elements as there are matching
projects. -/
theorem matchedSorted_length (M : Matchers) (s : Store) (q : Query) :
    (matchedSorted M s q).length = (s.projects.filter (fun p => q.matches M p)).length := by
  unfold matchedSorted
  rw [List.length_insertionSort, List.length_map]

/-- The count of a filter that the cast leaves as it is, with valid dates
and accepted by the database, is the number of matches. -/
theorem countDocuments_plain (M : Matchers) (s : Store) (q : Query)
    (hcast : M.castFilter q = .ok q) (hdate : q.hasInvalidDate = false)
    (haccept : M.rejects q = none) :
    countDocuments M s q = .ok (matchedSorted M s q).length := by
  unfold countDocuments
  simp only [hcast, hdate, haccept, Bool.false_eq_true, if_false]
  rw [matchedSorted_length]

/-- The reply of `getProjects` when the database accepts the query and the
count succeeds: the slice of the sorted matches at offset
`(page - 1) * limit`, and `totalPages = ceil(total / limit)`. -/
theorem getProjects_listing (M : Matchers) (parseDate : String → Option Int) (s : Store)
    (req : ListRequest) (page limit : Int) (total : Nat)
    (hp : req.page = some page) (hpage : 1 ≤ page)
    (hl : req.limit = some limit) (hlimit : 1 ≤ limit)
    (haccept : M.rejects (buildProjectQuery parseDate req.filters) = none)
    (hcount : countDocuments M s (buildProjectQuery parseDate req.filters) = .ok total) :
    getProjects M parseDate s req
      = .sent { status := 200
                body := .listing
                  (((matchedSorted M s (buildProjectQuery parseDate req.filters)).drop
                      ((page - 1) * limit).toNat).take limit.toNat).length
                  page ⌈((total : ℚ) / (limit : ℚ))⌉
                  (((matchedSorted M s (buildProjectQuery parseDate req.filters)).drop
                      ((page - 1) * limit).toNat).take limit.toNat) } := by
  have hpi : intOr req.page 1 = page := by
    rw [hp]; unfold intOr
    have : page ≠ 0 := by omega
    simp [this]
  have hli : intOr req.limit 10 = limit := by
    rw [hl]; unfold intOr
    have : limit ≠ 0 := by omega
    simp [this]
  have hskip : ¬ ((page - 1) * limit < 0) := by
    have : 0 ≤ (page - 1) * limit := mul_nonneg (by omega) (by omega)
    omega
  have hlim : ¬ (limit ≤ 0) := by omega
  unfold getProjects
  simp only [hpi, hli, hcount]
  unfold listingPipeline
  simp only [haccept, hskip, hlim, if_false]

/-- The two bounds on the number of pages: the offset of the last page is
below `total` and the offset of the page after it is not. -/
theorem totalPages_bounds (total : Nat) (limit : Int) (hlimit : 1 ≤ limit) :
    (⌈((total : ℚ) / (limit : ℚ))⌉ - 1) * limit < (total : Int)
    ∧ (total : Int) ≤ (⌈((total : ℚ) / (limit : ℚ))⌉ + 1 - 1) * limit := by
  have hl0 : (0 : ℚ) < (limit : ℚ) := by exact_mod_cast (by omega : (0 : Int) < limit)
  constructor
  · have h1 : ((⌈((total : ℚ) / (limit : ℚ))⌉ : Int) : ℚ) < (total : ℚ) / (limit : ℚ) + 1 :=
      Int.ceil_lt_add_one _
    have h2 : (((⌈((total : ℚ) / (limit : ℚ))⌉ : Int) : ℚ) - 1) * (limit : ℚ) < (total : ℚ) := by
      have : (((⌈((total : ℚ) / (limit : ℚ))⌉ : Int) : ℚ) - 1) < (total : ℚ) / (limit : ℚ) := by
        linarith
      calc (((⌈((total : ℚ) / (limit : ℚ))⌉ : Int) : ℚ) - 1) * (limit : ℚ)
          < (total : ℚ) / (limit : ℚ) * (limit : ℚ) := mul_lt_mul_of_pos_right this hl0
        _ = (total : ℚ) := by field_simp
    exact_mod_cast h2
  · have h1 : (total : ℚ) / (limit : ℚ) ≤ ((⌈((total : ℚ) / (limit : ℚ))⌉ : Int) : ℚ) :=
      Int.le_ceil _
    have h2 : (total : ℚ) ≤ ((⌈((total : ℚ) / (limit : ℚ))⌉ : Int) : ℚ) * (limit : ℚ) := by
      calc (total : ℚ) = (total : ℚ) / (limit : ℚ) * (limit : ℚ) := by field_simp
        _ ≤ ((⌈((total : ℚ) / (limit : ℚ))⌉ : Int) : ℚ) * (limit : ℚ) :=
          mul_le_mul_of_nonneg_right h1 (le_of_lt hl0)
    have h3 : (total : Int) ≤ ⌈((total : ℚ) / (limit : ℚ))⌉ * limit := by exact_mod_cast h2
    simpa using h3

/-- C22: for a page of at least 1, a page size of at least 1 and a match
count `total` (the database accepts the query and the count returns
`total`), `getProjects` lists the slice of the sorted matches at offset
`(page - 1) * limit` and reports `totalPages = ceil(total / limit)`; the
offset of page `totalPages` is smaller than `total` and the offset of page
`totalPages + 1` is at least `total`; so, `total` being the number of
matches, page `totalPages` lists a project when there is one and page
`totalPages + 1` lists none. -/
theorem pagination_covers_total (M : Matchers) (parseDate : String → Option Int) (s : Store)
    (req : ListRequest) (page limit : Int) (total : Nat)
    (hp : req.page = some page) (hpage : 1 ≤ page)
    (hl : req.limit = some limit) (hlimit : 1 ≤ limit)
    (haccept : M.rejects (buildProjectQuery parseDate req.filters) = none)
    (hcount : countDocuments M s (buildProjectQuery parseDate req.filters) = .ok total) :
    getProjects M parseDate s req
      = .sent { status := 200
                body := .listing
                  (((matchedSorted M s (buildProjectQuery parseDate req.filters)).drop
                      ((page - 1) * limit).toNat).take limit.toNat).length
                  page ⌈((total : ℚ) / (limit : ℚ))⌉
                  (((matchedSorted M s (buildProjectQuery parseDate req.filters)).drop
                      ((page - 1) * limit).toNat).take limit.toNat) }
    ∧ (⌈((total : ℚ) / (limit : ℚ))⌉ - 1) * limit < (total : Int)
    ∧ (total : Int) ≤ (⌈((total : ℚ) / (limit : ℚ))⌉ + 1 - 1) * limit
    ∧ (total = (matchedSorted M s (buildProjectQuery parseDate req.filters)).length →
        (0 < total →
          (getProjects M parseDate s
            { req with page := some ⌈((total : ℚ) / (limit : ℚ))⌉ }).listed ≠ [])
        ∧ (getProjects M parseDate s
            { req with page := some (⌈((total : ℚ) / (limit : ℚ))⌉ + 1) }).listed = []) := by
  obtain ⟨hb1, hb2⟩ := totalPages_bounds total limit hlimit
  have hl0 : (0 : ℚ) < (limit : ℚ) := by exact_mod_cast (by omega : (0 : Int) < limit)
  have hT0 : 0 ≤ ⌈((total : ℚ) / (limit : ℚ))⌉ :=
    Int.ceil_nonneg (div_nonneg (by exact_mod_cast Nat.zero_le total) (le_of_lt hl0))
  refine ⟨getProjects_listing M parseDate s req page limit total hp hpage hl hlimit haccept hcount,
    hb1, hb2, ?_⟩
  intro htotal
  have hf : ∀ pg, ({ req with page := pg } : ListRequest).filters = req.filters := fun _ => rfl
  constructor
  · intro hpos
    have hT1 : 1 ≤ ⌈((total : ℚ) / (limit : ℚ))⌉ := by
      have : (0 : ℚ) < (total : ℚ) / (limit : ℚ) :=
        div_pos (by exact_mod_cast hpos) hl0
      have := Int.ceil_pos.mpr this
      omega
    rw [getProjects_listing M parseDate s
      { req with page := some ⌈((total : ℚ) / (limit : ℚ))⌉ } _ limit total rfl hT1 hl hlimit
      haccept hcount]
    simp only [Reply.listed, hf]
    intro hnil
    have hlen := congrArg List.length hnil
    simp only [List.length_take, List.length_drop, List.length_nil] at hlen
    have hk : (⌈((total : ℚ) / (limit : ℚ))⌉ - 1) * limit
        = (((⌈((total : ℚ) / (limit : ℚ))⌉ - 1) * limit).toNat : Int) :=
      (Int.toNat_of_nonneg (mul_nonneg (by omega) (by omega))).symm
    have hlim : (limit.toNat : Int) = limit := Int.toNat_of_nonneg (by omega)
    rw [← htotal] at hlen
    omega
  · rw [getProjects_listing M parseDate s
      { req with page := some (⌈((total : ℚ) / (limit : ℚ))⌉ + 1) } _ limit total rfl
      (by omega) hl hlimit haccept hcount]
    simp only [Reply.listed, hf]
    have hk : (⌈((total : ℚ) / (limit : ℚ))⌉ + 1 - 1) * limit
        = (((⌈((total : ℚ) / (limit : ℚ))⌉ + 1 - 1) * limit).toNat : Int) :=
      (Int.toNat_of_nonneg (mul_nonneg (by omega) (by omega))).symm
    have hdrop : (matchedSorted M s (buildProjectQuery parseDate req.filters)).drop
        ((⌈((total : ℚ) / (limit : ℚ))⌉ + 1 - 1) * limit).toNat = [] := by
      apply List.drop_eq_nil_of_le
      rw [← htotal]
      omega
    rw [hdrop]
    exact List.take_nil

/-- C22, concrete instance: page 1 with page size 10 on the approved sample
store lists its one project and reports one page. -/
theorem pagination_covers_total_witness :
    getProjects sampleMatchers (fun _ => none) approvedStore { page := some 1, limit := some 10 }
      = .sent { status := 200
                body := .listing 1 1 1
                  [listProject approvedStore { sampleProject with status := .approved }] }
    ∧ (getProjects sampleMatchers (fun _ => none) approvedStore
        { page := some 2, limit := some 10 }).listed = [] := by
  have h := pagination_covers_total sampleMatchers (fun _ => none) approvedStore
    { page := some 1, limit := some 10 } 1 10 1 rfl (by decide) rfl (by decide) rfl (by rfl)
  have hceil : ⌈(((1 : Nat) : ℚ) / ((10 : Int) : ℚ))⌉ = 1 := by
    rw [Int.ceil_eq_iff]
    norm_num
  rw [hceil] at h
  refine ⟨?_, ?_⟩
  · rw [h.1]
    decide
  · exact (h.2.2.2 (by decide)).2

/-- An unparsable date filter: the count fails to cast the invalid date and
`getProjects` hands a 500 to the error middleware. -/
theorem getProjects_invalid_date (M : Matchers) (parseDate : String → Option Int) (s : Store)
    (req : ListRequest)
    (h : (buildProjectQuery parseDate req.filters).hasInvalidDate = true) :
    ∃ text, getProjects M parseDate s req = .passed (ApiError text 500) := by
  have hc : ∃ e, countDocuments M s (buildProjectQuery parseDate req.filters) = .error e := by
    unfold countDocuments
    cases M.castFilter (buildProjectQuery parseDate req.filters) with
    | error m => exact ⟨_, rfl⟩
    | ok cast => simp only [h, if_true]; exact ⟨_, rfl⟩
  obtain ⟨e, he⟩ := hc
  unfold getProjects
  simp only [he]
  cases listingPipeline M s (buildProjectQuery parseDate req.filters)
      ((intOr req.page 1 - 1) * intOr req.limit 10) (intOr req.limit 10) with
  | error e' => exact ⟨_, rfl⟩
  | ok projects => exact ⟨_, rfl⟩

/-- The start date `garbage` at the sample store: the request is answered
with status 500. -/
theorem getProjects_invalid_date_sample :
    (getProjects sampleMatchers (fun _ => none) approvedStore
        { startDate := .str "garbage" }).response
      = { status := 500
          body := .failure
            "Cast to date failed for value \"Invalid Date\" at path \"createdAt\"" } := by
  decide

/-- C30: the response of `getProject` for a stored project carries the view
count read before the increment and the engagement score computed from
that count, while the stored count afterwards is one more. -/
theorem fetch_reports_views_before_increment (now : Int) (s : Store) (pid : Id) (p : Project)
    (h : s.findProject pid = some p) :
    (getProjectRoute now s (.objectId pid)).response
      = some { status := 200
               body := .detail (listProject s p)
                 (calculateEngagementScore now
                   (some { likes := .num p.likes.length, views := .num p.views
                           featured := p.featured, createdAt := some p.createdAt }))
                 (getRelatedProjects (incrementViews now s pid) (.objectId pid) p.category 3) }
    ∧ (listProject s p).views = p.views
    ∧ ((getProjectRoute now s (.objectId pid)).store.findProject pid).map (fun q => q.views)
        = some (p.views + 1) := by
  refine ⟨?_, rfl, ?_⟩
  · unfold getProjectRoute getProject
    simp [h, mounted, listProject]
  · rw [getProjectRoute_store, findProject_incrementViews, if_pos rfl, h]
    rfl

/-- C30, concrete instance: the starred project has 25 stored views; its
fetch reports 25 and stores 26. -/
theorem fetch_reports_views_before_increment_witness :
    (listProject { users := [alice], projects := [starProject] } starProject).views = 25
    ∧ ((getProjectRoute 2000 { users := [alice], projects := [starProject] }
        (.objectId "p1")).store.findProject "p1").map (fun q => q.views) = some (25 + 1) :=
  have h := fetch_reports_views_before_increment 2000
    { users := [alice], projects := [starProject] } "p1" starProject (by decide)
  ⟨h.2.1, h.2.2⟩

/-- The owner looked up in a store whose member records were changed
outside the summary fields projects to the same listed owner. -/
theorem listed_owner_scrubbed (users : List User) (f : User → User) (owner : Id)
    (hf : ∀ u, (f u).id = u.id ∧ (f u).fullName = u.fullName ∧ (f u).email = u.email
      ∧ (f u).avatar = u.avatar) :
    ((users.map f).find? (fun u => u.id == owner)).map
        (fun u => ({ fullName := u.fullName, email := u.email, avatar := u.avatar } : ListedOwner))
      = (users.find? (fun u => u.id == owner)).map
        (fun u => ({ fullName := u.fullName, email := u.email, avatar := u.avatar } : ListedOwner)) := by
  induction users with
  | nil => rfl
  | cons u us ih =>
    simp only [List.map_cons, List.find?_cons, (hf u).1]
    cases hb : (u.id == owner)
    · simpa using ih
    · simp [(hf u).2.1, (hf u).2.2.1, (hf u).2.2.2]

/-- C23: the owner summary written by `formatProjectResponse` holds the
identifier, full name, email and avatar of the owner record, and the listing
pipeline keeps full name, email and avatar; changing any other field of the
member records (the credential hash among them) leaves both outputs as they
were. -/
theorem owner_summary_only (project : PopulatedProject) (includeOwner : Bool)
    (f : User → User) (s : Store) (p : Project)
    (hf : ∀ u, (f u).id = u.id ∧ (f u).fullName = u.fullName ∧ (f u).email = u.email
      ∧ (f u).avatar = u.avatar) :
    formatProjectResponse
        (some { project with
          owner := project.owner.map f, collaborators := project.collaborators.map f })
        includeOwner
      = formatProjectResponse (some project) includeOwner
    ∧ (formatProjectResponse (some project) true).map (fun r => r.owner)
      = some (project.owner.map
          (fun u => { id := u.id, fullName := u.fullName, email := u.email, avatar := u.avatar }))
    ∧ listProject { s with users := s.users.map f } p = listProject s p := by
  have hsum : ∀ u, summarize (f u) = summarize u := by
    intro u
    unfold summarize
    rw [(hf u).1, (hf u).2.1, (hf u).2.2.1, (hf u).2.2.2]
  refine ⟨?_, rfl, ?_⟩
  · unfold formatProjectResponse
    simp only [Option.map_map, List.map_map, List.length_map]
    have h1 : summarize ∘ f = summarize := funext hsum
    rw [h1]
  · unfold listProject
    simp only
    rw [listed_owner_scrubbed s.users f p.owner hf]

/-- C23, concrete instance: replacing the credential hash, the role and the
activity flag of every member changes neither output. -/
theorem owner_summary_only_witness :
    formatProjectResponse
        (some { doc := sampleProject
                owner := some { alice with password := "other", role := .admin, isActive := false }
                collaborators := [] }) true
      = formatProjectResponse (some { doc := sampleProject, owner := some alice, collaborators := [] })
          true
    ∧ (formatProjectResponse
        (some { doc := sampleProject, owner := some alice, collaborators := [] }) true).map
        (fun r => r.owner)
      = some (some { id := "u1", fullName := "Alice", email := "alice@club.org", avatar := "" }) :=
  have h := owner_summary_only { doc := sampleProject, owner := some alice, collaborators := [] }
    true (fun u => { u with password := "other", role := .admin, isActive := false })
    sampleStore sampleProject (fun _ => ⟨rfl, rfl, rfl, rfl⟩)
  ⟨h.1, h.2.1⟩

/-- C24: the scorer is defined on every input; for a missing project it
returns 0; a likes value that is neither an array nor a number counts as 0
likes, a views value that is not a number counts as 0 views, and an invalid
creation date adds no recency bonus. -/
theorem engagement_score_defaults (now : Int) (likes : LikesValue) (views : ViewsValue)
    (featured : Bool) (createdAt : Option Int) :
    calculateEngagementScore now none = 0
    ∧ calculateEngagementScore now (some ⟨.other, views, featured, createdAt⟩)
      = calculateEngagementScore now (some ⟨.num 0, views, featured, createdAt⟩)
    ∧ calculateEngagementScore now (some ⟨likes, .other, featured, createdAt⟩)
      = calculateEngagementScore now (some ⟨likes, .num 0, featured, createdAt⟩)
    ∧ calculateEngagementScore now (some ⟨likes, views, featured, none⟩)
      = min (min (likesOf likes * 2) 40 + min ((⌊viewsOf views / 10⌋ : Int) : ℚ) 20
          + (if featured then 20 else 0)) 100
    ∧ calculateEngagementScore now (some ⟨.other, .other, false, none⟩) = 0 := by
  refine ⟨rfl, rfl, rfl, ?_, ?_⟩
  · unfold calculateEngagementScore
    cases featured <;> simp
  · simp [calculateEngagementScore, likesOf, viewsOf]

/-- C25, evaluation at a failing input: for the numeric likes value -30 the
scorer returns -60, below the documented range from 0 to 100; only the
upper end is capped. -/
theorem engagement_score_negative_likes :
    calculateEngagementScore 0 (some ⟨.num (-30), .num 0, false, none⟩) = -60
    ∧ calculateEngagementScore 0 (some ⟨.num (-30), .num 0, false, none⟩) < 0
    ∧ calculateEngagementScore 0 (some ⟨.num 0, .num (-500), false, none⟩) = -50 := by
  refine ⟨?_, ?_, ?_⟩ <;> norm_num [calculateEngagementScore, likesOf, viewsOf]

/-- C26: with every filter absent or empty `buildProjectQuery` returns
exactly the predicate with status `approved`; each constraint is present
exactly when its filter is supplied; the date bounds are inclusive. -/
theorem query_constraints_follow_filters (parseDate : String → Option Int) (M : Matchers)
    (filters : Filters) (p : Project) (lower upper : Int)
    (hnone : filters.category.truthy = false ∧ filters.search.truthy = false
      ∧ filters.tag.truthy = false ∧ filters.technology.truthy = false
      ∧ filters.startDate.truthy = false ∧ filters.endDate.truthy = false) :
    buildProjectQuery parseDate filters = { status := .approved }
    ∧ buildProjectQuery parseDate {} = { status := .approved }
    ∧ (∀ g : Filters,
        (buildProjectQuery parseDate g).category.isSome = g.category.truthy
        ∧ (buildProjectQuery parseDate g).text.isSome = g.search.truthy
        ∧ (buildProjectQuery parseDate g).tags.isSome = g.tag.truthy
        ∧ (buildProjectQuery parseDate g).technologies.isSome = g.technology.truthy
        ∧ ((buildProjectQuery parseDate g).createdAt.bind (fun r => r.gte)).isSome
            = g.startDate.truthy
        ∧ ((buildProjectQuery parseDate g).createdAt.bind (fun r => r.lte)).isSome
            = g.endDate.truthy)
    ∧ ({ status := .approved
         createdAt := some { gte := some (some lower), lte := some (some upper) } } : Query).matches
          M p
        = (decide (p.status = .approved) && decide (lower ≤ p.createdAt)
            && decide (p.createdAt ≤ upper)) := by
  obtain ⟨h1, h2, h3, h4, h5, h6⟩ := hnone
  refine ⟨?_, rfl, ?_, ?_⟩
  · unfold buildProjectQuery
    simp [h1, h2, h3, h4, h5, h6]
  · intro g
    unfold buildProjectQuery
    cases g.category.truthy <;> cases g.search.truthy <;> cases g.tag.truthy <;>
      cases g.technology.truthy <;> cases g.startDate.truthy <;> cases g.endDate.truthy <;>
      simp
  · simp [Query.matches, boundHolds, Bool.and_assoc]

/-- C26, concrete instance: empty strings are absent filters, and a filter
on the two dates alone keeps an approved project created on a bound. -/
theorem query_constraints_follow_filters_witness :
    buildProjectQuery (fun _ => none) { category := .str "", search := .str "" }
      = { status := .approved }
    ∧ (buildProjectQuery (fun t => if t = "a" then some 1000 else some 2000)
        { startDate := .str "a", endDate := .str "b" }).matches sampleMatchers
        { sampleProject with status := .approved, createdAt := 2000 } = true :=
  have h := query_constraints_follow_filters (fun _ => none) sampleMatchers
    { category := .str "", search := .str "" } sampleProject 1000 2000 (by decide)
  ⟨h.1, by decide⟩

/-- A pattern of plain characters matches at the start of a text exactly
when its lower-cased characters begin the lower-cased text. -/
theorem patternPrefix_plain (pattern text : List Char)
    (h : ∀ c ∈ pattern, isPlainChar c = true) :
    patternPrefix pattern text
      = (pattern.map Char.toLower).isPrefixOf (text.map Char.toLower) := by
  induction pattern generalizing text with
  | nil => cases text <;> rfl
  | cons pc ps ih =>
    cases text with
    | nil => rfl
    | cons c cs =>
      have hpc : pc ≠ '.' := by
        intro hdot
        have := h pc (List.mem_cons_self _ _)
        rw [hdot] at this
        exact absurd this (by decide)
      have ih' := ih cs (fun x hx => h x (List.mem_cons_of_mem _ hx))
      simp only [patternPrefix, patternCharMatches, hpc, if_false, List.map_cons,
        List.isPrefixOf, ih']

/-- A pattern of plain characters is found in a text exactly when it is a
case-insensitive substring of it. -/
theorem patternSearch_plain (pattern text : List Char)
    (h : ∀ c ∈ pattern, isPlainChar c = true) :
    patternSearch pattern text
      = infixSearch (pattern.map Char.toLower) (text.map Char.toLower) := by
  induction text with
  | nil =>
    simp only [patternSearch, infixSearch, List.map_nil]
    rw [patternPrefix_plain pattern [] h]
    rfl
  | cons c cs ih =>
    simp only [patternSearch, infixSearch, List.map_cons]
    rw [patternPrefix_plain pattern (c :: cs) h, ih]
    rfl

/-- C27 (as amended): a supplied technology filter is handed to the storage
layer unescaped, as a regular expression with option `i`, and the built
predicate matches a project exactly when the project is approved and that
expression is found in its technologies text; for a filter made of letters,
digits, spaces and commas the search is containment as a case-insensitive
substring. -/
theorem technology_filter_is_regex (parseDate : String → Option Int) (M : Matchers)
    (t : String) (p : Project) (ht : t ≠ "") :
    (buildProjectQuery parseDate { technology := .str t }).technologies = some (.str t)
    ∧ (buildProjectQuery parseDate { technology := .str t }).matches M p
      = (decide (p.status = .approved) && M.regexI (.str t) p.technologies)
    ∧ ((∀ c ∈ t.toList, isPlainChar c = true) →
        regexSearchI t p.technologies = some (containsIgnoreCase p.technologies t)) := by
  have hq : buildProjectQuery parseDate { technology := .str t }
      = { status := .approved, technologies := some (.str t) } := by
    unfold buildProjectQuery
    simp [QVal.truthy, ht]
  refine ⟨by rw [hq], ?_, ?_⟩
  · rw [hq]
    simp [Query.matches]
  · intro hplain
    unfold regexSearchI containsIgnoreCase
    have hall : t.toList.all (fun c => isPlainChar c || c = '.') = true := by
      rw [List.all_eq_true]
      intro c hc
      simp [hplain c hc]
    rw [if_pos hall, patternSearch_plain t.toList p.technologies.toList hplain]

/-- C27, concrete instance: the plain filter `arduino` is found in the
technologies text of the sample project as a case-insensitive substring. -/
theorem technology_filter_is_regex_witness :
    (buildProjectQuery (fun _ => none) { technology := .str "arduino" }).matches fragmentMatchers
        { sampleProject with status := .approved } = true
    ∧ regexSearchI "arduino" sampleProject.technologies
      = some (containsIgnoreCase sampleProject.technologies "arduino") := by
  have h := technology_filter_is_regex (fun _ => none) fragmentMatchers "arduino" sampleProject
    (by decide)
  exact ⟨by decide, h.2.2 (by decide)⟩

/-- C27, counterexample: the filter `.` is a wildcard for the storage layer;
the predicate matches the approved sample project, whose technologies text
`C, Arduino` does not contain a full stop. -/
theorem technology_wildcard_counterexample :
    sampleProject.technologies = "C, Arduino"
    ∧ containsIgnoreCase sampleProject.technologies "." = false
    ∧ regexSearchI "." sampleProject.technologies = some true
    ∧ (buildProjectQuery (fun _ => none) { technology := .str "." }).matches fragmentMatchers
        { sampleProject with status := .approved } = true := by
  refine ⟨by decide, by decide, by decide, by decide⟩

/-- C28 (as amended): an error whose own status code is absent, zero or an
error status (400 to 599) is answered by `globalErrorHandler` with an error
status and the envelope `{success: false, error}`, unless the handler has
to read a `keyValue` or an `errors` property that the error lacks; an
`ApiError` with an error status is answered with the envelope and its own
status code, and so is every failure of the project fetch; `approveProject`
and `rejectProject` answer a missing project with 404 and the body
`{message}`, an internal failure with 500 and the body `{message}`, and
nothing else but 200 with the project. -/
theorem failure_bodies (e : JsError) (message : String) (code : Nat)
    (deliver : Notification → Bool) (now : Int) (s : Store) (id : IdParam)
    (hlow : 400 ≤ code) (hhigh : code ≤ 599) :
    ((e.code = some 11000 → e.keyValue ≠ none) → (e.name = "ValidationError" → e.errors ≠ none) →
        (∀ k, e.statusCode = some k → k = 0 ∨ (400 ≤ k ∧ k ≤ 599)) →
        ∃ r text, globalErrorHandler e = .ok r ∧ 400 ≤ r.status ∧ r.status ≤ 599
          ∧ r.body = .failure text)
    ∧ globalErrorHandler (ApiError message code)
      = .ok { status := code, body := .failure (strOr message "Server Error") }
    ∧ answerError (ApiError message code)
      = { status := code, body := .failure (strOr message "Server Error") }
    ∧ (∃ r, (getProjectRoute now s id).response = some r
        ∧ (r.status = 200 ∨ ∃ text, r.body = .failure text))
    ∧ ((approveProject deliver now s id).response
        = some { status := 404, body := .message "Project not found" }
      ∨ (approveProject deliver now s id).response
        = some { status := 500, body := .message "Server error approving project" }
      ∨ ∃ doc, (approveProject deliver now s id).response
        = some { status := 200, body := .document doc })
    ∧ ((rejectProject deliver now s id).response
        = some { status := 404, body := .message "Project not found" }
      ∨ (rejectProject deliver now s id).response
        = some { status := 500, body := .message "Server error rejecting project" }
      ∨ ∃ doc, (rejectProject deliver now s id).response
        = some { status := 200, body := .document doc }) := by
  have hanswer := answerError_ApiError message code (by omega) (by omega)
  refine ⟨?_, ?_, hanswer, ?_, ?_, ?_⟩
  · intro hk hv hs
    cases h : globalErrorHandler e with
    | ok r =>
      obtain ⟨text, ht⟩ := globalErrorHandler_envelope e r h
      obtain ⟨h1, h2⟩ := globalErrorHandler_status e r h hs
      exact ⟨r, text, rfl, h1, h2, ht⟩
    | error err =>
      rcases globalErrorHandler_error e err h with ⟨h1, h2⟩ | ⟨h1, h2⟩ | ⟨k, h1, h2, h3⟩
      · exact absurd h2 (hk h1)
      · exact absurd h2 (hv h1)
      · rcases hs k h1 with h0 | h4
        · exact absurd h0 h2
        · omega
  · unfold answerError at hanswer
    cases h : globalErrorHandler (ApiError message code) with
    | ok r => rw [h] at hanswer; simp only at hanswer; rw [hanswer]
    | error err => rw [h] at hanswer; simp at hanswer
  · cases id with
    | malformed raw =>
      rw [getProjectRoute_malformed]
      exact ⟨_, rfl, Or.inr ⟨_, rfl⟩⟩
    | objectId pid =>
      cases h : s.findProject pid with
      | none =>
        rw [getProjectRoute_missing now s pid h]
        exact ⟨_, rfl, Or.inr ⟨_, rfl⟩⟩
      | some p =>
        unfold getProjectRoute getProject
        simp only [h, Option.map_some', mounted]
        exact ⟨_, rfl, Or.inl rfl⟩
  · cases id with
    | malformed raw => right; left; rfl
    | objectId pid =>
      cases h : s.findProject pid with
      | none => left; simp [approveProject, findById, h]
      | some p => right; right; exact ⟨_, (approveProject_found deliver now s pid p h).1⟩
  · cases id with
    | malformed raw => right; left; rfl
    | objectId pid =>
      cases h : s.findProject pid with
      | none => left; simp [rejectProject, findById, h]
      | some p => right; right; exact ⟨_, (rejectProject_found deliver now s pid p h).1⟩

/-- C28, concrete instance: the 403 of `deleteProject` is answered with the
envelope and the status 403. -/
theorem failure_bodies_witness :
    answerError (ApiError "Not authorized to delete this project" 403)
      = { status := 403, body := .failure "Not authorized to delete this project" } := by
  have h := (failure_bodies castError "Not authorized to delete this project" 403
    (fun _ => true) 0 sampleStore (.objectId "p1") (by decide) (by decide)).2.2.1
  rw [h]
  decide

/-- C28, counterexample: approving or rejecting an identifier that matches
no project is answered with 404 and the body `{message}`, which has no
`success` and no `error` field. -/
theorem failure_bodies_counterexample :
    (approveProject (fun _ => true) 2000 sampleStore (.objectId "p7")).response
      = some { status := 404, body := .message "Project not found" }
    ∧ (rejectProject (fun _ => true) 2000 sampleStore (.objectId "p7")).response
      = some { status := 404, body := .message "Project not found" }
    ∧ (approveProject (fun _ => true) 2000 sampleStore (.objectId "p7")).response
      ≠ some { status := 404, body := .failure "Project not found" } := by
  refine ⟨by decide, by decide, by decide⟩

/-- A duplicate-key error without a `keyValue` property makes
`globalErrorHandler` throw, and the request is answered by the framework
with status 500 and its own page. -/
theorem globalErrorHandler_throws_sample :
    globalErrorHandler { name := "MongoError", message := "E11000 duplicate key", code := some 11000 }
      = .error notAnObject
    ∧ answerError { name := "MongoError", message := "E11000 duplicate key", code := some 11000 }
      = { status := 500, body := .page } := by
  refine ⟨by rfl, by decide⟩

/-- A create request that fails the validation chain is answered with 400
and the body `{errors}`. -/
theorem create_validation_failure_sample :
    (createRoute sampleVerify (fun _ => true) "p2" 5000 sampleStore (some "Bearer tok-a")
        { sampleBody with title := some "Arm" }).response
      = some { status := 400, body := .errors ["Title must be between 5 and 100 characters"] } := by
  decide

/-- The status of a project after a moderation call is the target of the
call. -/
theorem moderate_status (deliver : Notification → Bool) (s : Store) (pid : Id) (p : Project)
    (c : Decision) (h : s.findProject pid = some p) :
    ∃ q, (moderate deliver (.objectId pid) s c).findProject pid = some q
      ∧ q.status = c.target := by
  cases c with
  | approve now =>
    obtain ⟨_, hs, _⟩ := approveProject_found deliver now s pid p h
    obtain ⟨h1, _⟩ := saveStatus_spec now now s pid p .approved h
    exact ⟨_, by simp only [moderate]; rw [hs, h1], rfl⟩
  | reject now =>
    obtain ⟨_, hs, _⟩ := rejectProject_found deliver now s pid p h
    obtain ⟨h1, _⟩ := saveStatus_spec now now s pid p .rejected h
    exact ⟨_, by simp only [moderate]; rw [hs, h1], rfl⟩

/-- C29 (as amended): over every sequence of approve and reject calls on a
stored project, the status after the sequence is the status written by the
last call (the initial status for the empty sequence): each call sets its
target status whatever the current one is. -/
theorem moderation_last_call_wins (deliver : Notification → Bool) (calls : List Decision)
    (s : Store) (pid : Id) (p : Project) (h : s.findProject pid = some p) :
    ((moderateAll deliver (.objectId pid) s calls).findProject pid).map (fun q => q.status)
      = some (lastTarget p.status calls) := by
  induction calls generalizing s p with
  | nil => simp [moderateAll, lastTarget, h]
  | cons c cs ih =>
    obtain ⟨q, hq, hst⟩ := moderate_status deliver s pid p c h
    have := ih (moderate deliver (.objectId pid) s c) q hq
    simp only [moderateAll, lastTarget, List.foldl_cons] at this ⊢
    rw [this, hst]

/-- C29, concrete instance: approve, reject, approve leaves the sample
project approved. -/
theorem moderation_last_call_wins_witness :
    ((moderateAll (fun _ => true) (.objectId "p1") sampleStore
        [.approve 2000, .reject 3000, .approve 4000]).findProject "p1").map (fun q => q.status)
      = some .approved :=
  moderation_last_call_wins (fun _ => true) [.approve 2000, .reject 3000, .approve 4000]
    sampleStore "p1" sampleProject (by decide)

/-- C29, counterexample: a reject call on an approved project succeeds and
moves it to rejected, and an approve call moves it back. -/
theorem approved_is_not_terminal_counterexample :
    (approvedStore.findProject "p1").map (fun q => q.status) = some .approved
    ∧ (rejectProject (fun _ => true) 2000 approvedStore (.objectId "p1")).response.map
        (fun r => r.status) = some 200
    ∧ ((rejectProject (fun _ => true) 2000 approvedStore (.objectId "p1")).store.findProject
        "p1").map (fun q => q.status) = some .rejected
    ∧ ((moderateAll (fun _ => true) (.objectId "p1") approvedStore
        [.reject 2000, .approve 3000]).findProject "p1").map (fun q => q.status)
      = some .approved := by
  refine ⟨by decide, by decide, by decide, by decide⟩
/-- Lookup of another id after a document was removed. -/
theorem find_eraseProject (ps : List Project) (id other : Id) (h : other ≠ id) :
    (eraseProject ps id).find? (fun p => p.id == other) = ps.find? (fun p => p.id == other) := by
  induction ps with
  | nil => rfl
  | cons p ps ih =>
    unfold eraseProject
    by_cases hp : p.id = id
    · have hne : (p.id == other) = false := by
        rw [hp]
        simpa using fun hh : id = other => h hh.symm
      have hb : (p.id == id) = true := by simpa using hp
      rw [List.find?_cons, hne]
      simp only [hb, if_true]
    · have hb : (p.id == id) = false := by simpa using hp
      simp only [hb, Bool.false_eq_true, if_false]
      rw [List.find?_cons, List.find?_cons, ih]

/-- The delete route for a stored project whose owner record is stored: an
admin's request is answered 200 and removes that project alone; the request
of any other member whose id is not the printed owner document is answered
403 and changes nothing. -/
theorem deleteRoute_by_role (verify : String → Except JwtFailure Id) (s : Store)
    (authorization : Option String) (pid : Id) (p : Project) (owner : OwnerSummary) (user : User)
    (hAuth : protect verify s authorization = .ok user) (hfind : s.findProject pid = some p)
    (hown : populateOwner s p = some owner) (htext : inspectOwner owner ≠ user.id) :
    (user.role = .admin →
      (deleteRoute verify s authorization (.objectId pid)).response
        = some { status := 200, body := .removed "Project removed" }
      ∧ (deleteRoute verify s authorization (.objectId pid)).store.users = s.users
      ∧ ∀ other, other ≠ pid →
          (deleteRoute verify s authorization (.objectId pid)).store.findProject other
            = s.findProject other)
    ∧ (user.role ≠ .admin →
      (deleteRoute verify s authorization (.objectId pid)).response
        = some { status := 403, body := .failure "Not authorized to delete this project" }
      ∧ (deleteRoute verify s authorization (.objectId pid)).store = s) := by
  have hb : (inspectOwner owner != user.id) = true := by simpa using htext
  constructor
  · intro hadmin
    have hr : (user.role != Role.admin) = false := by simp [hadmin]
    have hout : deleteRoute verify s authorization (.objectId pid)
        = { response := some { status := 200, body := .removed "Project removed" }
            store := { s with projects := eraseProject s.projects pid } } := by
      unfold deleteRoute deleteProject findById
      simp [hAuth, hfind, hown, ownerToString, hb, hr, mounted]
    rw [hout]
    refine ⟨rfl, rfl, ?_⟩
    intro other hne
    exact find_eraseProject s.projects pid other hne
  · intro hrole
    have hr : (user.role != Role.admin) = true := by simpa using hrole
    have hout : deleteRoute verify s authorization (.objectId pid)
        = errorOutcome s (ApiError "Not authorized to delete this project" 403) := by
      unfold deleteRoute deleteProject findById
      simp [hAuth, hfind, hown, ownerToString, hb, hr, mounted, callNext, Except.map]
    rw [hout]
    exact ⟨rfl, rfl⟩

/-- The delete route at the sample store: the owner `alice` is refused, the
admin `root` removes the project. -/
theorem deleteRoute_by_role_sample :
    (deleteRoute sampleVerify sampleStore (some "Bearer tok-a") (.objectId "p1")).store
      = sampleStore
    ∧ (deleteRoute sampleVerify sampleStore (some "Bearer tok-r") (.objectId "p1")).store.users
      = sampleStore.users :=
  ⟨((deleteRoute_by_role sampleVerify sampleStore (some "Bearer tok-a") "p1" sampleProject
      { id := "u1", fullName := "Alice", email := "alice@club.org", avatar := "" } alice
      (by rfl) (by decide) (by decide) (by decide)).2 (by decide)).2,
   ((deleteRoute_by_role sampleVerify sampleStore (some "Bearer tok-r") "p1" sampleProject
      { id := "u1", fullName := "Alice", email := "alice@club.org", avatar := "" } root
      (by rfl) (by decide) (by decide) (by decide)).1 (by decide)).2.1⟩

/-- The update route for a stored project whose owner record is stored: the
valid request of a member who is not an admin and whose id is not the
printed owner document is answered 500 by the route and changes nothing. -/
theorem updateRoute_non_admin (operate : Operate) (verify : String → Except JwtFailure Id)
    (isURL : String → Bool) (now : Int) (s : Store) (authorization : Option String) (pid : Id)
    (p : Project) (owner : OwnerSummary) (user : User) (body vbody : UpdateBody)
    (hAuth : protect verify s authorization = .ok user) (hfind : s.findProject pid = some p)
    (hown : populateOwner s p = some owner) (htext : inspectOwner owner ≠ user.id)
    (hrole : user.role ≠ .admin) (hvalid : validateUpdate body = ([], vbody)) :
    updateRoute operate verify isURL now s authorization (.objectId pid) body
      = { response := some { status := 500, body := .message "Server error updating project" }
          store := s } := by
  have hb : (inspectOwner owner != user.id) = true := by simpa using htext
  have hr : (user.role != Role.admin) = true := by simpa using hrole
  unfold updateRoute updateProject findById
  simp [hAuth, hvalid, hfind, hown, ownerToString, hb, hr, callNext, Except.map,
    nextIsNotAFunction]

/-- The update route at the sample club: the valid request of `bob` is
answered 500. -/
theorem updateRoute_non_admin_sample :
    updateRoute sampleOperate clubVerify (fun _ => true) 2000 clubStore (some "Bearer tok-b")
        (.objectId "p1") { fields := { title := some "Robot arm v2" } }
      = { response := some { status := 500, body := .message "Server error updating project" }
          store := clubStore } :=
  updateRoute_non_admin sampleOperate clubVerify (fun _ => true) 2000 clubStore
    (some "Bearer tok-b") "p1"
    sampleProject { id := "u1", fullName := "Alice", email := "alice@club.org", avatar := "" }
    bob { fields := { title := some "Robot arm v2" } }
    { fields := { title := some "Robot arm v2" } }
    (by rfl) (by decide) (by decide) (by decide) (by decide) (by decide)

end TechInnovators
